import Mathlib

/-!
Verification development for the MaidSafe-Drive directory tree manager and
credentialed root bootstrap.

The definitions below are a shallow embedding of the C++ sources
(`directory_listing_handler.cc`, `utils.cc`, `meta_data.cc`, `drive.cc`).
External collaborators (the passport/credential library, the protobuf codec,
the self-encryption codec) and `DirectoryListing` (whose translation unit is
not part of the sources, only its callers) are modelled from the
specification's contracts; each such definition carries a doc comment saying
so.  Machine integers are modelled as `Nat`/`Int` (no overflow is relevant to
the properties below), C++ exceptions as `Except`, and the blob store as an
association list threaded through every operation together with a trace of
store events (so ordering properties are statable) and a set of keys on which
`Put` fails (so failure-handling properties are statable).

Platform-conditional code (`#ifdef MAIDSAFE_WIN32`) is embedded with an
explicit `posix : Bool` parameter; `MetaData` carries the POSIX attribute
fields, which subsume the Windows ones for the claims at hand.
-/

set_option autoImplicit false

namespace MaidsafeDrive

/-- `Identity` (64-byte opaque byte string) is modelled as a string; the
length restriction plays no role in the verified properties. -/
abbrev Ident := String

/-- Serialized `DataMap` of a file, opaque to the directory machinery. -/
abbrev FileDataMap := String

/-- Error taxonomy: the `CommonErrors` codes thrown by the embedded code. -/
inductive DriveError where
  | invalidParameter
  | noSuchElement
  | parsingError
  | decryptionError
  | ioError
deriving DecidableEq, Repr

/-- `tolower` on an ASCII character, as used by `std::transform(..., tolower)`
in `ExcludedFilename`: codes 65–90 (`A`–`Z`) shift by 32, all else is fixed. -/
def toLowerChar (c : Char) : Char :=
  if 65 ≤ c.toNat ∧ c.toNat ≤ 90 then Char.ofNat (c.toNat + 32) else c

/-- Case-insensitive sort key of a name (the spec's "case-insensitive
lexicographic order on wide names"). -/
def nameKey (s : String) : String := ⟨s.data.map toLowerChar⟩

/-- One `MetaData` record (POSIX attribute layout; `meta_data.cc`).
Times are seconds since the epoch, modelled as `Nat`. -/
structure MetaData where
  name : String
  st_size : Nat
  st_atime : Nat
  st_mtime : Nat
  st_ctime : Nat
  st_nlink : Nat
  st_mode : Nat
  st_uid : Nat
  st_gid : Nat
  data_map : Option FileDataMap
  directory_id : Option Ident
  notes : List String
deriving DecidableEq, Repr

/-- `S_IFDIR`, equal to the source's `kAttributesDir` (0x4000). -/
def kAttributesDir : Nat := 0x4000

/-- Modelled from the spec: `detail::kDirectorySize` ("for directories a
fixed synthetic size"); its defining header is not among the sources.  The
deserialising constructor pins the directory size to 4096 (`meta_data.cc:274`),
so that value is used. -/
def kDirectorySize : Nat := 4096

/-- `MetaData::MetaData(name, is_directory)` (`meta_data.cc:125`, POSIX
branch).  `RandomString(64)` and `getuid`/`getgid`/`time` are impure and are
passed in as arguments. -/
def mkMetaData (name : String) (is_directory : Bool) (fresh_dir_id : Ident)
    (now uid gid : Nat) : MetaData :=
  { name := name
    st_size := if is_directory then kDirectorySize else 0
    st_atime := now
    st_mtime := now
    st_ctime := now
    st_nlink := 1
    st_mode := if is_directory then 0o755 + kAttributesDir else 0o644
    st_uid := uid
    st_gid := gid
    data_map := if is_directory then none else some ""
    directory_id := if is_directory then some fresh_dir_id else none
    notes := [] }

/-- `MetaData::MetaData()` (`meta_data.cc:101`, POSIX branch): sets uid, gid,
mode 0644 and nlink 1; both `data_map` and `directory_id` are left null.
Fields the constructor leaves indeterminate are modelled as 0. -/
def mkMetaDataDefault (uid gid : Nat) : MetaData :=
  { name := ""
    st_size := 0
    st_atime := 0
    st_mtime := 0
    st_ctime := 0
    st_nlink := 1
    st_mode := 0o644
    st_uid := uid
    st_gid := gid
    data_map := none
    directory_id := none
    notes := [] }

/-- The protobuf `MetaData` message: the fields read by the deserialising
constructor, with `optional` fields as `Option`. -/
structure PbMetaData where
  name : String
  st_size : Nat
  creation_time : Nat
  last_access_time : Nat
  last_write_time : Nat
  st_mode : Nat
  st_nlink : Option Nat
  st_uid : Option Nat
  st_gid : Option Nat
  link_to : Option String
  serialised_data_map : Option FileDataMap
  directory_id : Option Ident
  notes : List String
deriving DecidableEq, Repr

/-- `MetaData::MetaData(serialised_meta_data)` (`meta_data.cc:211`, POSIX
branch) applied to an already protobuf-parsed message.  Exactly one of
`serialised_data_map` / `directory_id` must be present: both present is a
`parsing_error`, both absent an `invalid_parameter`.  Fields left
indeterminate by the source are modelled as 0. -/
def metaDataFromSerialised (pb : PbMetaData) : Except DriveError MetaData :=
  let name0 := if pb.name = "\\" ∨ pb.name = "/" then "/" else pb.name
  let st_size0 := if pb.st_mode &&& kAttributesDir = kAttributesDir
                  then 4096 else pb.st_size
  match pb.serialised_data_map, pb.directory_id with
  | some _, some _ => .error .parsingError
  | some dm, none =>
      .ok { name := name0, st_size := st_size0
            st_atime := pb.last_access_time, st_mtime := pb.last_write_time
            st_ctime := pb.creation_time, st_mode := pb.st_mode
            st_nlink := pb.st_nlink.getD 0
            st_uid := pb.st_uid.getD 0, st_gid := pb.st_gid.getD 0
            data_map := some dm, directory_id := none, notes := pb.notes }
  | none, some d =>
      .ok { name := name0, st_size := st_size0
            st_atime := pb.last_access_time, st_mtime := pb.last_write_time
            st_ctime := pb.creation_time, st_mode := pb.st_mode
            st_nlink := pb.st_nlink.getD 0
            st_uid := pb.st_uid.getD 0, st_gid := pb.st_gid.getD 0
            data_map := none, directory_id := some d, notes := pb.notes }
  | none, none => .error .invalidParameter

/-- `MetaData::UpdateLastModifiedTime()` (POSIX branch: `time(&st_mtime)`). -/
def MetaData.updateLastModifiedTime (m : MetaData) (now : Nat) : MetaData :=
  { m with st_mtime := now }

/-- `MetaData::GetAllocatedSize()` (POSIX branch returns `st_size`). -/
def MetaData.getAllocatedSize (m : MetaData) : Nat := m.st_size

/-- `DirectoryListingHandler::IsDirectory`: a `MetaData` is a directory iff
its `directory_id` is set. -/
def isDirectory (m : MetaData) : Bool := m.directory_id.isSome

/-- The claimed invariant of C7: exactly one of `data_map` / `directory_id`
is held. -/
def metaXor (m : MetaData) : Bool := m.data_map.isSome ≠ m.directory_id.isSome

/-- Modelled from the spec: `DirectoryListing` (its translation unit is not
among the sources): a `DirectoryId` plus children ordered by the
case-insensitive name key, names unique under that key (§3). -/
structure DirectoryListing where
  directory_id : Ident
  children : List MetaData
deriving DecidableEq, Repr

namespace DirectoryListing

/-- Lexicographic comparison of names by code point (the tie-break order of
the spec's sorted child container). -/
def charListLe : List Char → List Char → Bool
  | [], _ => true
  | _ :: _, [] => false
  | a :: as, b :: bs =>
      if a.toNat < b.toNat then true
      else if b.toNat < a.toNat then false
      else charListLe as bs

/-- Modelled from the spec: insertion keeping the case-insensitive order. -/
def insertChild (m : MetaData) : List MetaData → List MetaData
  | [] => [m]
  | c :: rest =>
      if charListLe (nameKey m.name).data (nameKey c.name).data then m :: c :: rest
      else c :: insertChild m rest

/-- Modelled from the spec: membership of a name, case-insensitively. -/
def hasChild (l : DirectoryListing) (name : String) : Bool :=
  l.children.any fun c => nameKey c.name == nameKey name

/-- Modelled from the spec: fetch the child of a given name; absent names
fail `NotFound`. -/
def getChild (l : DirectoryListing) (name : String) : Except DriveError MetaData :=
  match l.children.find? (fun c => nameKey c.name == nameKey name) with
  | some m => .ok m
  | none => .error .noSuchElement

/-- Modelled from the spec: add a child; a name already present (invariant 4,
case-insensitive uniqueness) is rejected. -/
def addChild (l : DirectoryListing) (m : MetaData) : Except DriveError DirectoryListing :=
  if l.hasChild m.name then .error .invalidParameter
  else .ok { l with children := insertChild m l.children }

/-- Modelled from the spec: remove the child with the given meta's name;
absent names fail `NotFound`. -/
def removeChild (l : DirectoryListing) (m : MetaData) : Except DriveError DirectoryListing :=
  if l.hasChild m.name then
    .ok { l with children := l.children.filter fun c => !(nameKey c.name == nameKey m.name) }
  else .error .noSuchElement

/-- Modelled from the spec: replace the child entry of the meta's name; when
`create` is set an absent name is added instead of failing. -/
def updateChild (l : DirectoryListing) (m : MetaData) (create : Bool) :
    Except DriveError DirectoryListing :=
  if l.hasChild m.name then
    .ok { l with children :=
            insertChild m (l.children.filter fun c => !(nameKey c.name == nameKey m.name)) }
  else if create then .ok { l with children := insertChild m l.children }
  else .error .noSuchElement

/-- Modelled from the spec: `empty()`. -/
def isEmptyListing (l : DirectoryListing) : Bool := l.children.isEmpty

end DirectoryListing

/-- `DirectoryData` (`directory_listing_handler.h`): the in-memory pair of a
parent id and a listing.  (`last_save`/`last_change`/`content_changed` are
never read by the embedded operations and are omitted.) -/
structure DirectoryData where
  parent_id : Ident
  listing : DirectoryListing
deriving DecidableEq, Repr

/-- Modelled from the spec: the session signing key (MAID).  The passport
library is external; the key is opaque and only its identity matters. -/
structure Maid where
  key : Nat
deriving DecidableEq, Repr

/-- The protobuf `Passport` message holding serialized fobs, as used by
`Session::Serialise`/`Parse` (`utils.cc:71-115`).  The protobuf codec is
external; serialisation is modelled as the message value itself. -/
structure PassportProto where
  fobs : List Maid
deriving DecidableEq, Repr

/-- The protobuf `Session` message (`proto_structs.pb`): the two ids plus the
serialized passport holding the maid. -/
structure ProtoSession where
  unique_user_id : Ident
  root_parent_id : Ident
  serialised_maid : PassportProto
deriving DecidableEq, Repr

/-- The in-memory `Session` (`utils.h`/`utils.cc`). -/
structure Session where
  unique_user_id : Ident
  root_parent_id : Ident
  maid : Maid
deriving DecidableEq, Repr

/-- `Session::Serialise` (`utils.cc:71`): build the protobuf message, the
maid wrapped as the single fob of a passport message. -/
def Session.serialise (s : Session) : ProtoSession :=
  { unique_user_id := s.unique_user_id
    root_parent_id := s.root_parent_id
    serialised_maid := { fobs := [s.maid] } }

/-- `Session::Parse` (`utils.cc:96`): read the ids and rebuild the maid from
fob 0 of the passport message; an absent fob is a parse failure. -/
def Session.parse (p : ProtoSession) : Except DriveError Session :=
  match p.serialised_maid.fobs.head? with
  | some m => .ok { unique_user_id := p.unique_user_id
                    root_parent_id := p.root_parent_id
                    maid := m }
  | none => .error .parsingError

/-- Modelled from the spec: `passport::detail::EncryptSession` output — an
envelope bound to the three credentials (§6 credential contract; the library
is external).  Decryption checks the credentials. -/
structure EncSession where
  keyword : String
  pin : String
  password : String
  payload : ProtoSession
deriving DecidableEq, Repr

/-- Modelled from the spec: `EncryptSession(keyword, pin, password, bytes)`. -/
def encryptSession (keyword pin password : String) (payload : ProtoSession) : EncSession :=
  { keyword := keyword, pin := pin, password := password, payload := payload }

/-- Modelled from the spec: `DecryptSession`; wrong credentials fail with a
decryption error. -/
def decryptSession (keyword pin password : String) (e : EncSession) :
    Except DriveError ProtoSession :=
  if e.keyword = keyword ∧ e.pin = pin ∧ e.password = password then .ok e.payload
  else .error .decryptionError

/-- Modelled from the spec: the encrypted TMID name stored inside a `Mid`
(§4.1 step f).  The TMID's name is itself derived from the TMID's contents
(credential-library hashing, modelled as content-carrying). -/
structure EncTmidName where
  keyword : String
  pin : String
  tmid_name : EncSession
deriving DecidableEq, Repr

/-- Modelled from the spec: `EncryptTmidName(keyword, pin, tmid_name)`. -/
def encryptTmidName (keyword pin : String) (tmid_name : EncSession) : EncTmidName :=
  { keyword := keyword, pin := pin, tmid_name := tmid_name }

/-- Modelled from the spec: `DecryptTmidName`. -/
def decryptTmidName (keyword pin : String) (e : EncTmidName) :
    Except DriveError EncSession :=
  if e.keyword = keyword ∧ e.pin = pin then .ok e.tmid_name
  else .error .decryptionError

/-- Modelled from the spec: `encrypt::EncryptDataMap(parent_id, directory_id,
data_map)` — AEAD with both ids as associated data (§6).  The serialize /
self-encrypt / read-back pipeline for directory listings is bijective
(spec §8 round-trip law), so the carried payload is the listing itself. -/
structure EncDataMap where
  ad_parent : Ident
  ad_dir : Ident
  payload : DirectoryListing
deriving DecidableEq, Repr

/-- Modelled from the spec: `encrypt::DecryptDataMap`; mismatched associated
data fails with a decryption error. -/
def decryptDataMap (parent_id directory_id : Ident) (e : EncDataMap) :
    Except DriveError DirectoryListing :=
  if e.ad_parent = parent_id ∧ e.ad_dir = directory_id then .ok e.payload
  else .error .decryptionError

/-- Store keys.  Passport names carry their type tag, so MID names, TMID
names and `OwnerDirectory` names live in disjoint key spaces; the
credential-library name derivations (`Mid::GenerateName(keyword, pin)`,
TMID name hashing) are deterministic and are modelled content-carrying. -/
inductive Key where
  | midName (keyword pin : String)
  | tmidName (t : EncSession)
  | dirKey (d : Ident)
deriving DecidableEq, Repr

/-- Store values: serialized `Mid`, `Tmid` and `OwnerDirectory` blobs.  An
`OwnerDirectory` carries its name, the encrypted data map, and a signature
by the maid's private key (`directory_listing_handler.cc:447`). -/
inductive Bytes where
  | midBytes (encrypted_tmid_name : EncTmidName)
  | tmidBytes (encrypted_session : EncSession)
  | ownerDir (name : Ident) (encrypted_data_map : EncDataMap) (sig : Nat)
deriving DecidableEq, Repr

/-- One blob-store interaction, for stating ordering properties. -/
inductive StoreEvent where
  | putE (k : Key)
  | getE (k : Key)
  | delE (k : Key)
deriving DecidableEq, Repr

def StoreEvent.isPut : StoreEvent → Bool
  | .putE _ => true
  | _ => false

def lookupKey : List (Key × Bytes) → Key → Option Bytes
  | [], _ => none
  | (k', b) :: rest, k => if k' = k then some b else lookupKey rest k

def insertKey : List (Key × Bytes) → Key → Bytes → List (Key × Bytes)
  | [], k, b => [(k, b)]
  | (k', b') :: rest, k, b =>
      if k' = k then (k, b) :: rest else (k', b') :: insertKey rest k b

def removeKey : List (Key × Bytes) → Key → List (Key × Bytes)
  | [], _ => []
  | (k', b') :: rest, k =>
      if k' = k then rest else (k', b') :: removeKey rest k

/-- The data-store state threaded through every operation: the key→blob map,
the set of keys on which `Put` reports an I/O failure (the store may throw;
§6), and the trace of performed store interactions. -/
structure St where
  store : List (Key × Bytes)
  failPut : List Key
  events : List StoreEvent
deriving DecidableEq, Repr

/-- `data_store_.Get`: a missing key throws. -/
def dsGet (st : St) (k : Key) : Except DriveError (Bytes × St) :=
  match lookupKey st.store k with
  | some b => .ok (b, { st with events := st.events ++ [.getE k] })
  | none => .error .noSuchElement

/-- `data_store_.Put`: idempotent overwrite; keys in `failPut` throw. -/
def dsPut (st : St) (k : Key) (b : Bytes) : Except DriveError St :=
  if k ∈ st.failPut then .error .ioError
  else .ok { st with store := insertKey st.store k b
                     events := st.events ++ [.putE k] }

/-- `data_store_.Delete`: no-op on absent keys. -/
def dsDel (st : St) (k : Key) : St :=
  { st with store := removeKey st.store k
            events := st.events ++ [.delE k] }

/-- The handler's identity state (`DirectoryListingHandler` members). -/
structure Handler where
  unique_user_id : Ident
  root_parent_id : Ident
  maid : Maid
deriving DecidableEq, Repr

/-- A relative path, as the list of `boost::filesystem::path` components;
iterating `"/a/b"` yields `["/", "a", "b"]`, so every non-empty relative
path in this system starts with the `"/"` component. -/
abbrev RPath := List String

/-- `path.parent_path()`: drop the last component. -/
def parentPath (p : RPath) : RPath := p.dropLast

/-- `path.filename()`: the last component (empty path → empty name). -/
def filenameOf (p : RPath) : String := p.getLast?.getD ""

/-- `DirectoryListingHandler::RetrieveFromStorage` (release semantics): fetch
the `OwnerDirectory` blob keyed by `directory_id`, decrypt the data map with
`(parent_id, directory_id)` as associated data, read the serialized listing
back and parse it.  NOTE: the source checks
`assert(directory.listing->directory_id() == directory_id)` — a debug-build
abort that is compiled out of release builds and never raises `ParsingError`;
accordingly no identifier check is performed here. -/
def retrieveFromStorage (st : St) (parent_id directory_id : Ident) :
    Except DriveError (DirectoryData × St) :=
  match dsGet st (Key.dirKey directory_id) with
  | .error e => .error e
  | .ok (b, st1) =>
      match b with
      | .ownerDir _ enc _ =>
          match decryptDataMap parent_id directory_id enc with
          | .error e => .error e
          | .ok listing => .ok ({ parent_id := parent_id, listing := listing }, st1)
      | _ => .error .parsingError

/-- `DirectoryListingHandler::PutToStorage`: serialize the listing,
self-encrypt it, envelope-encrypt the data map under
`(parent_id, directory_id)`, and store the signed `OwnerDirectory` under the
key equal to the listing's own `directory_id`
(`directory_listing_handler.cc:425-452`). -/
def putToStorage (maid : Maid) (st : St) (dir : DirectoryData) : Except DriveError St :=
  let enc : EncDataMap :=
    { ad_parent := dir.parent_id
      ad_dir := dir.listing.directory_id
      payload := dir.listing }
  dsPut st (Key.dirKey dir.listing.directory_id)
    (Bytes.ownerDir dir.listing.directory_id enc maid.key)

/-- `DirectoryListingHandler::DeleteStored`: fetch and decrypt the data map
(chunk deletion belongs to the external self-encryption codec and touches
only codec-owned chunk keys), then delete the envelope blob. -/
def deleteStored (st : St) (parent_id directory_id : Ident) : Except DriveError St :=
  match dsGet st (Key.dirKey directory_id) with
  | .error e => .error e
  | .ok (b, st1) =>
      match b with
      | .ownerDir _ enc _ =>
          match decryptDataMap parent_id directory_id enc with
          | .error e => .error e
          | .ok _ => .ok (dsDel st1 (Key.dirKey directory_id))
      | _ => .error .parsingError

/-- The loop body of `GetFromPath`: consume components one at a time; the
first component is looked up as the relative root `"/"`
(`directory_listing_handler.cc:113-128`). -/
def walkPath (st : St) (dir : DirectoryData) (first : Bool) :
    RPath → Except DriveError (DirectoryData × St)
  | [] => .ok (dir, st)
  | c :: rest =>
      match dir.listing.getChild (if first then "/" else c) with
      | .error e => .error e
      | .ok meta =>
          match meta.directory_id with
          | none => .error .invalidParameter
          | some d =>
              match retrieveFromStorage st dir.listing.directory_id d with
              | .error e => .error e
              | .ok (dir', st') => walkPath st' dir' false rest

/-- `DirectoryListingHandler::GetFromPath`: load the root-parent listing
(stored under `root_parent_id`, associated data `unique_user_id`) and walk
the components. -/
def getFromPath (h : Handler) (st : St) (p : RPath) :
    Except DriveError (DirectoryData × St) :=
  match retrieveFromStorage st h.unique_user_id h.root_parent_id with
  | .error e => .error e
  | .ok (dir, st1) => walkPath st1 dir true p

/-- `DirectoryListingHandler::GetParentAndGrandparent`: grandparent from the
path's grandparent, the parent's meta from the grandparent's listing (must be
a directory), parent from the path's parent. -/
def getParentAndGrandparent (h : Handler) (st : St) (p : RPath) :
    Except DriveError (DirectoryData × DirectoryData × MetaData × St) :=
  match getFromPath h st (parentPath (parentPath p)) with
  | .error e => .error e
  | .ok (grandparent, st1) =>
      match grandparent.listing.getChild (filenameOf (parentPath p)) with
      | .error e => .error e
      | .ok parent_meta =>
          if parent_meta.directory_id.isSome then
            match getFromPath h st1 (parentPath p) with
            | .error e => .error e
            | .ok (parent, st2) => .ok (grandparent, parent, parent_meta, st2)
          else .error .invalidParameter

/-- `DirectoryListingHandler::DirectoryListingHandler` (first run versus
recovery; `directory_listing_handler.cc:42-103`).  The impure inputs —
the two fresh 64-byte identities, the fresh maid, `time`, `getuid`/`getgid` —
are arguments.  On a store miss of the MID name: generate identities and a
session, encrypt and store TMID then MID, then create and store the
root-parent listing (holding the single child `"/"`) and the root listing.
On a hit: follow the MID → TMID indirection and decrypt the session. -/
def constructHandler (st : St) (keyword pin password : String)
    (fresh_uid fresh_rpid fresh_root_dir_id : Ident) (fresh_maid : Maid)
    (now uid gid : Nat) : Except DriveError (Handler × St) :=
  match dsGet st (Key.midName keyword pin) with
  | .error _ =>
      -- first run
      let session : Session :=
        { unique_user_id := fresh_uid, root_parent_id := fresh_rpid
          maid := fresh_maid }
      let encrypted_session := encryptSession keyword pin password session.serialise
      let encrypted_tmid_name := encryptTmidName keyword pin encrypted_session
      match dsPut st (Key.tmidName encrypted_session)
              (Bytes.tmidBytes encrypted_session) with
      | .error e => .error e
      | .ok st1 =>
          match dsPut st1 (Key.midName keyword pin)
                  (Bytes.midBytes encrypted_tmid_name) with
          | .error e => .error e
          | .ok st2 =>
              let root_meta_data := mkMetaData "/" true fresh_root_dir_id now uid gid
              let root_parent_listing : DirectoryListing :=
                { directory_id := fresh_rpid, children := [] }
              let root_listing : DirectoryListing :=
                { directory_id := fresh_root_dir_id, children := [] }
              let root : DirectoryData :=
                { parent_id := fresh_rpid, listing := root_listing }
              match DirectoryListing.addChild root_parent_listing root_meta_data with
              | .error e => .error e
              | .ok root_parent_listing' =>
                  let root_parent : DirectoryData :=
                    { parent_id := fresh_uid, listing := root_parent_listing' }
                  match putToStorage fresh_maid st2 root_parent with
                  | .error e => .error e
                  | .ok st3 =>
                      match putToStorage fresh_maid st3 root with
                      | .error e => .error e
                      | .ok st4 =>
                          .ok ({ unique_user_id := fresh_uid
                                 root_parent_id := fresh_rpid
                                 maid := fresh_maid }, st4)
  | .ok (serialised_mid, st1) =>
      -- recovery
      match serialised_mid with
      | .midBytes encrypted_tmid_name =>
          match decryptTmidName keyword pin encrypted_tmid_name with
          | .error e => .error e
          | .ok tmid_name =>
              match dsGet st1 (Key.tmidName tmid_name) with
              | .error e => .error e
              | .ok (serialised_tmid, st2) =>
                  match serialised_tmid with
                  | .tmidBytes encrypted_session =>
                      match decryptSession keyword pin password encrypted_session with
                      | .error e => .error e
                      | .ok serialised_session =>
                          match Session.parse serialised_session with
                          | .error e => .error e
                          | .ok session =>
                              .ok ({ unique_user_id := session.unique_user_id
                                     root_parent_id := session.root_parent_id
                                     maid := session.maid }, st2)
                  | _ => .error .parsingError
      | _ => .error .parsingError

/-- Result of `AddElement`: the call's outcome plus the final value of the
in-memory `parent.listing` local (`none` when the parent was never loaded).
The second component makes the source's failure-time rollback of the
in-memory parent observable to the statements below. -/
structure AddResult where
  result : Except DriveError (Ident × Ident × St)
  parentListing : Option DirectoryListing
deriving Repr

/-- `DirectoryListingHandler::AddElement` (`directory_listing_handler.cc:132`):
locate parent and grandparent, add the child to the parent's listing; for a
directory child, create and store its (empty) listing first, rolling the
in-memory add back on failure; bump the parent's mtime (POSIX: ctime too and
nlink for directories), update the parent's entry in the grandparent, persist
the parent (rolling back the in-memory add on failure), then persist the
grandparent (no rollback). -/
def addElement (h : Handler) (posix : Bool) (now : Nat) (st : St) (p : RPath)
    (meta : MetaData) : AddResult :=
  match getParentAndGrandparent h st p with
  | .error e => { result := .error e, parentListing := none }
  | .ok (grandparent, parent, parent_meta, st1) =>
      match parent.listing.addChild meta with
      | .error e => { result := .error e, parentListing := some parent.listing }
      | .ok l1 =>
          let afterChildBlob : Except DriveError St :=
            match meta.directory_id with
            | some d =>
                let directory : DirectoryData :=
                  { parent_id := parent.listing.directory_id
                    listing := { directory_id := d, children := [] } }
                putToStorage h.maid st1 directory
            | none => .ok st1
          match afterChildBlob with
          | .error e =>
              match l1.removeChild meta with
              | .ok l0 => { result := .error e, parentListing := some l0 }
              | .error e2 => { result := .error e2, parentListing := some l1 }
          | .ok st2 =>
              let parent_meta1 := parent_meta.updateLastModifiedTime now
              let parent_meta2 :=
                if posix then
                  { parent_meta1 with
                    st_ctime := parent_meta1.st_mtime
                    st_nlink := parent_meta1.st_nlink +
                                  (if isDirectory meta then 1 else 0) }
                else parent_meta1
              match grandparent.listing.updateChild parent_meta2 true with
              | .error e => { result := .error e, parentListing := some l1 }
              | .ok gl1 =>
                  match putToStorage h.maid st2 { parent with listing := l1 } with
                  | .error e =>
                      match l1.removeChild meta with
                      | .ok l0 => { result := .error e, parentListing := some l0 }
                      | .error e2 => { result := .error e2, parentListing := some l1 }
                  | .ok st3 =>
                      match putToStorage h.maid st3
                              { grandparent with listing := gl1 } with
                      | .error e => { result := .error e, parentListing := some l1 }
                      | .ok st4 =>
                          { result := .ok (grandparent.listing.directory_id,
                                           parent.listing.directory_id, st4)
                            parentListing := some l1 }

/-- `DirectoryListingHandler::DeleteElement`
(`directory_listing_handler.cc:180`): fetch the child's meta; for a directory
child, load it (result unused) and delete its stored blob; remove the child
from the parent listing; bump the parent's mtime (POSIX: ctime, nlink
decrement for directories); update the grandparent's entry for the parent
(failures swallowed); then persist the grandparent (POSIX only) and persist
the parent. -/
def deleteElement (h : Handler) (posix : Bool) (now : Nat) (st : St) (p : RPath) :
    Except DriveError (MetaData × St) :=
  match getParentAndGrandparent h st p with
  | .error e => .error e
  | .ok (grandparent, parent, parent_meta, st1) =>
      match parent.listing.getChild (filenameOf p) with
      | .error e => .error e
      | .ok meta =>
          let afterDirDelete : Except DriveError St :=
            match meta.directory_id with
            | some d =>
                match getFromPath h st1 p with
                | .error e => .error e
                | .ok (_, st1') => deleteStored st1' parent.listing.directory_id d
            | none => .ok st1
          match afterDirDelete with
          | .error e => .error e
          | .ok st2 =>
              match parent.listing.removeChild meta with
              | .error e => .error e
              | .ok l1 =>
                  let parent_meta1 := parent_meta.updateLastModifiedTime now
                  let parent_meta2 :=
                    if posix then
                      { parent_meta1 with
                        st_ctime := parent_meta1.st_mtime
                        st_nlink := parent_meta1.st_nlink -
                                      (if isDirectory meta then 1 else 0) }
                    else parent_meta1
                  let gl1 :=
                    match grandparent.listing.updateChild parent_meta2 true with
                    | .ok gl => gl
                    | .error _ => grandparent.listing  -- non-critical, swallowed
                  let afterGrandparent : Except DriveError St :=
                    if posix then
                      putToStorage h.maid st2 { grandparent with listing := gl1 }
                    else .ok st2
                  match afterGrandparent with
                  | .error e => .error e
                  | .ok st3 =>
                      match putToStorage h.maid st3 { parent with listing := l1 } with
                      | .error e => .error e
                      | .ok st4 => .ok (meta, st4)

/-- `DirectoryListingHandler::RenameSameParent`
(`directory_listing_handler.cc:227`).  POSIX bumps the moved meta's
mtime/ctime first (restoring them when the displaced target's meta cannot be
fetched).  A fresh target name: remove the source entry, rename, re-add.  An
occupied target name: remove the target (its allocated size becomes the
reclaimed space), remove the source, rename, re-add.  Then set the parent's
times (Windows: last-write only; POSIX: ctime = mtime = meta's mtime),
persist the parent, and on POSIX update the parent's entry in the grandparent
(failures swallowed) and persist the grandparent. -/
def renameSameParent (h : Handler) (posix : Bool) (now : Nat) (st : St)
    (old_p new_p : RPath) (meta : MetaData) (reclaimed_space : Int) :
    Except DriveError (MetaData × Int × St) :=
  match getParentAndGrandparent h st old_p with
  | .error e => .error e
  | .ok (grandparent, parent, parent_meta, st1) =>
      let meta1 := if posix then { meta with st_mtime := now, st_ctime := now }
                   else meta
      let shuffled : Except DriveError (DirectoryListing × MetaData × Int) :=
        if ¬ parent.listing.hasChild (filenameOf new_p) then
          match parent.listing.removeChild meta1 with
          | .error e => .error e
          | .ok l1 =>
              let meta2 := { meta1 with name := filenameOf new_p }
              match l1.addChild meta2 with
              | .error e => .error e
              | .ok l2 => .ok (l2, meta2, reclaimed_space)
        else
          match parent.listing.getChild (filenameOf new_p) with
          | .error e => .error e   -- POSIX restores meta's times; caller's meta is unchanged
          | .ok old_meta =>
              match parent.listing.removeChild old_meta with
              | .error e => .error e
              | .ok l1 =>
                  let reclaimed1 : Int := old_meta.getAllocatedSize
                  match l1.removeChild meta1 with
                  | .error e => .error e
                  | .ok l2 =>
                      let meta2 := { meta1 with name := filenameOf new_p }
                      match l2.addChild meta2 with
                      | .error e => .error e
                      | .ok l3 => .ok (l3, meta2, reclaimed1)
      match shuffled with
      | .error e => .error e
      | .ok (l', meta', reclaimed') =>
          let parent_meta1 :=
            if posix then
              { parent_meta with st_ctime := meta'.st_mtime, st_mtime := meta'.st_mtime }
            else { parent_meta with st_mtime := now }
          match putToStorage h.maid st1 { parent with listing := l' } with
          | .error e => .error e
          | .ok st2 =>
              if posix then
                let gl1 :=
                  match grandparent.listing.updateChild parent_meta1 true with
                  | .ok gl => gl
                  | .error _ => grandparent.listing  -- non-critical, swallowed
                match putToStorage h.maid st2 { grandparent with listing := gl1 } with
                | .error e => .error e
                | .ok st3 => .ok (meta', reclaimed', st3)
              else .ok (meta', reclaimed', st2)

/-- `DirectoryListingHandler::RenameDifferentParent`
(`directory_listing_handler.cc:292`): load both parents and grandparents; for
a directory, re-home its stored blob (delete under the old parent id, store
under the new); remove from the old parent; add to the new parent (removing a
displaced target into the reclaimed space); adjust parent metadata (POSIX:
nlink transfer for directories); persist old parent, new parent, and on POSIX
the old grandparent. -/
def renameDifferentParent (h : Handler) (posix : Bool) (now : Nat) (st : St)
    (old_p new_p : RPath) (meta : MetaData) (reclaimed_space : Int) :
    Except DriveError (MetaData × Int × St) :=
  match getParentAndGrandparent h st old_p with
  | .error e => .error e
  | .ok (old_grandparent, old_parent, old_parent_meta, st1) =>
      match getParentAndGrandparent h st1 new_p with
      | .error e => .error e
      | .ok (_, new_parent, new_parent_meta, st2) =>
          let meta1 := if posix then { meta with st_mtime := now, st_ctime := now }
                       else meta
          let afterDirMove : Except DriveError St :=
            match meta1.directory_id with
            | some _ =>
                match getFromPath h st2 old_p with
                | .error e => .error e
                | .ok (directory, st2') =>
                    match deleteStored st2' directory.parent_id
                            directory.listing.directory_id with
                    | .error e => .error e
                    | .ok st2'' =>
                        putToStorage h.maid st2''
                          { directory with parent_id := new_parent.listing.directory_id }
            | none => .ok st2
          match afterDirMove with
          | .error e => .error e
          | .ok st3 =>
              match old_parent.listing.removeChild meta1 with
              | .error e => .error e
              | .ok ol1 =>
                  let shuffled : Except DriveError (DirectoryListing × MetaData × Int) :=
                    if ¬ new_parent.listing.hasChild (filenameOf new_p) then
                      let meta2 := { meta1 with name := filenameOf new_p }
                      match new_parent.listing.addChild meta2 with
                      | .error e => .error e
                      | .ok nl1 => .ok (nl1, meta2, reclaimed_space)
                    else
                      match new_parent.listing.getChild (filenameOf new_p) with
                      | .error e => .error e
                      | .ok old_meta =>
                          match new_parent.listing.removeChild old_meta with
                          | .error e => .error e
                          | .ok nl1 =>
                              let reclaimed1 : Int := old_meta.getAllocatedSize
                              let meta2 := { meta1 with name := filenameOf new_p }
                              match nl1.addChild meta2 with
                              | .error e => .error e
                              | .ok nl2 => .ok (nl2, meta2, reclaimed1)
                  match shuffled with
                  | .error e => .error e
                  | .ok (nl', meta', reclaimed') =>
                      let old_parent_meta1 :=
                        if posix then
                          { old_parent_meta with
                            st_ctime := meta'.st_mtime, st_mtime := meta'.st_mtime
                            st_nlink := old_parent_meta.st_nlink -
                                          (if isDirectory meta' then 1 else 0) }
                        else { old_parent_meta with st_mtime := now }
                      let _new_parent_meta1 :=
                        if posix ∧ isDirectory meta' then
                          { new_parent_meta with
                            st_nlink := new_parent_meta.st_nlink + 1
                            st_ctime := if posix then meta'.st_mtime else new_parent_meta.st_ctime
                            st_mtime := if posix then meta'.st_mtime else new_parent_meta.st_mtime }
                        else new_parent_meta
                      match putToStorage h.maid st3 { old_parent with listing := ol1 } with
                      | .error e => .error e
                      | .ok st4 =>
                          match putToStorage h.maid st4
                                  { new_parent with listing := nl' } with
                          | .error e => .error e
                          | .ok st5 =>
                              if posix then
                                let ogl1 :=
                                  match old_grandparent.listing.updateChild
                                          old_parent_meta1 true with
                                  | .ok gl => gl
                                  | .error _ => old_grandparent.listing
                                match putToStorage h.maid st5
                                        { old_grandparent with listing := ogl1 } with
                                | .error e => .error e
                                | .ok st6 => .ok (meta', reclaimed', st6)
                              else .ok (meta', reclaimed', st5)

/-- `DirectoryListingHandler::RenameElement`
(`directory_listing_handler.cc:213`): identical paths return immediately;
same-parent and different-parent renames are dispatched on the parent
paths. -/
def renameElement (h : Handler) (posix : Bool) (now : Nat) (st : St)
    (old_p new_p : RPath) (meta : MetaData) (reclaimed_space : Int) :
    Except DriveError (MetaData × Int × St) :=
  if old_p = new_p then .ok (meta, reclaimed_space, st)
  else if parentPath old_p = parentPath new_p then
    renameSameParent h posix now st old_p new_p meta reclaimed_space
  else
    renameDifferentParent h posix now st old_p new_p meta reclaimed_space

/-- `DriveInUserSpace::GetMetaData` (`drive.cc:101`): the child's meta from
the parent's listing, plus the grandparent and parent directory ids. -/
def getMetaData (h : Handler) (st : St) (p : RPath) :
    Except DriveError (MetaData × Ident × Ident × St) :=
  match getFromPath h st (parentPath p) with
  | .error e => .error e
  | .ok (parent, st1) =>
      match parent.listing.getChild (filenameOf p) with
      | .error e => .error e
      | .ok meta => .ok (meta, parent.parent_id, parent.listing.directory_id, st1)

/-- `DriveInUserSpace::ReadDataMap` (`drive.cc:178`): an empty path or null
output pointer is an `invalid_parameter`; fetch the meta; a missing
`data_map` (a directory) is an `invalid_parameter`; otherwise return the
serialized data map (the external `SerialiseDataMap` is the identity on the
opaque serialized form). -/
def readDataMap (h : Handler) (st : St) (p : RPath) (out_ptr_valid : Bool) :
    Except DriveError (FileDataMap × St) :=
  if p = [] ∨ ¬ out_ptr_valid then .error .invalidParameter
  else
    match getMetaData h st p with
    | .error e => .error e
    | .ok (meta, _, _, st1) =>
        match meta.data_map with
        | none => .error .invalidParameter
        | some dm => .ok (dm, st1)

/-- `DriveInUserSpace::GetDataMap` (`drive.cc:166`): lock the API mutex and
delegate to `ReadDataMap`. -/
def getDataMap (h : Handler) (st : St) (p : RPath) (out_ptr_valid : Bool) :
    Except DriveError (FileDataMap × St) :=
  readDataMap h st p out_ptr_valid

/-- `DriveInUserSpace::GetDataMapHidden` (`drive.cc:172`): lock the API mutex
and delegate to `ReadDataMap`. -/
def getDataMapHidden (h : Handler) (st : St) (p : RPath) (out_ptr_valid : Bool) :
    Except DriveError (FileDataMap × St) :=
  readDataMap h st p out_ptr_valid

/-! ### The name policy (`ExcludedFilename`, `utils.cc:133-177`)

Filename components are modelled as `List Char` (the `std::string` the C++
operates on), so that index and substring operations are directly statable. -/

/-- Index of the last `.` in a name (`string::rfind`). -/
def rfindDot : List Char → Option Nat
  | [] => none
  | c :: rest =>
      match rfindDot rest with
      | some i => some (i + 1)
      | none => if c = '.' then some 0 else none

/-- `boost::filesystem::path::stem()`: `"."` and `".."` are their own stem;
otherwise the substring before the last dot (the whole name if there is no
dot).  Boost has no special case for a leading dot. -/
def stemOf (f : List Char) : List Char :=
  if f = ['.'] ∨ f = ['.', '.'] then f
  else
    match rfindDot f with
    | none => f
    | some i => f.take i

/-- `isdigit`: the character is one of the ten decimal digits. -/
def isDigitChar (c : Char) : Bool :=
  c ∈ ['0', '1', '2', '3', '4', '5', '6', '7', '8', '9']

/-- The excluded character set `"\/<>?:*|` (and the double quote). -/
def excludedChars : List Char :=
  ['\"', '\\', '/', '<', '>', '?', ':', '*', '|']

/-- Lowering a whole name (`std::transform(..., tolower)`). -/
def lowerName (s : List Char) : List Char := s.map toLowerChar

/-- The final loop of `ExcludedFilename`: scan the (stemmed) name and return
true at the first excluded character. -/
def scanExcluded : List Char → Bool
  | [] => false
  | c :: rest => if c ∈ excludedChars then true else scanExcluded rest

/-- The reserved-device checks of `ExcludedFilename` (`utils.cc:137-170`):
the three `if` blocks on the name's length (4 with a trailing non-zero
digit and a `com`/`lpt` prefix; exactly `con`/`prn`/`aux`/`nul`; 6 ending
in `$` with a `clock` prefix), each returning `true` on a match. -/
def reservedDeviceCheck (file_name : List Char) : Bool :=
  if file_name.length = 4 ∧ isDigitChar (file_name.getD 3 ' ') then
    if file_name.getD 3 ' ' ≠ '0' then
      let name := lowerName (file_name.take 3)
      if name = ['c', 'o', 'm'] ∨ name = ['l', 'p', 't'] then true else false
    else false
  else if file_name.length = 3 then
    let name := lowerName file_name
    if name = ['c', 'o', 'n'] ∨ name = ['p', 'r', 'n'] ∨
       name = ['a', 'u', 'x'] ∨ name = ['n', 'u', 'l'] then true else false
  else if file_name.length = 6 then
    if file_name.getD 5 ' ' = '$' then
      let name := lowerName file_name
      if name.take 5 = ['c', 'l', 'o', 'c', 'k'] then true else false
    else false
  else false

/-- `ExcludedFilename` (`utils.cc:133`), applied to the path's filename
component.  The C++ first takes `filename().stem()` and then runs every
check — the reserved-device comparisons and the excluded-character scan —
on that stem. -/
def excludedFilename (path_filename : List Char) : Bool :=
  let file_name := stemOf path_filename
  reservedDeviceCheck file_name || scanExcluded file_name

/-- The classical reserved-device names of the claim:
`con`, `prn`, `aux`, `nul`, `com1`–`com9`, `lpt1`–`lpt9`, `clock$`. -/
def reservedDeviceNames : List (List Char) :=
  [['c', 'o', 'n'], ['p', 'r', 'n'], ['a', 'u', 'x'], ['n', 'u', 'l'],
   ['c', 'l', 'o', 'c', 'k', '$'],
   ['c', 'o', 'm', '1'], ['c', 'o', 'm', '2'], ['c', 'o', 'm', '3'],
   ['c', 'o', 'm', '4'], ['c', 'o', 'm', '5'], ['c', 'o', 'm', '6'],
   ['c', 'o', 'm', '7'], ['c', 'o', 'm', '8'], ['c', 'o', 'm', '9'],
   ['l', 'p', 't', '1'], ['l', 'p', 't', '2'], ['l', 'p', 't', '3'],
   ['l', 'p', 't', '4'], ['l', 'p', 't', '5'], ['l', 'p', 't', '6'],
   ['l', 'p', 't', '7'], ['l', 'p', 't', '8'], ['l', 'p', 't', '9']]

/-- The claim's rejection predicate, stated on the full filename exactly as
the claim words it: the filename matches (case-insensitively) a reserved
device name, or the name contains an excluded character anywhere. -/
def excludedFilenameClaim (path_filename : List Char) : Bool :=
  lowerName path_filename ∈ reservedDeviceNames ||
    path_filename.any (· ∈ excludedChars)

/-! ### Concrete fixtures

A small populated store used to evaluate the operations at concrete inputs:
user identity `"u"`, root-parent id `"r"`, root directory id `"d"`, with one
regular file `/x` (data map `"DM"`, 3 bytes) in the root directory. -/

/-- The root child `"/"` of the fixture, a directory entry pointing at `"d"`. -/
def rootMetaFx : MetaData := mkMetaData "/" true "d" 5 0 0

/-- The file `/x` of the fixture. -/
def mxFx : MetaData :=
  { mkMetaDataDefault 0 0 with name := "x", data_map := some "DM", st_size := 3 }

/-- The fixture's root-parent listing (id `"r"`, single child `"/"`). -/
def rootParentListingFx : DirectoryListing :=
  { directory_id := "r", children := [rootMetaFx] }

/-- The fixture's root listing (id `"d"`, single child `/x`). -/
def rootListingFx : DirectoryListing :=
  { directory_id := "d", children := [mxFx] }

/-- The fixture store: the two directory envelopes, no failing keys. -/
def stFx : St :=
  { store := [(Key.dirKey "r", Bytes.ownerDir "r" ⟨"u", "r", rootParentListingFx⟩ 7),
              (Key.dirKey "d", Bytes.ownerDir "d" ⟨"r", "d", rootListingFx⟩ 7)]
    failPut := []
    events := [] }

/-- The fixture handler. -/
def hFx : Handler := ⟨"u", "r", ⟨7⟩⟩

/-- The fixture store with a failing `Put` on the parent's key `"d"`. -/
def stFxFailParent : St := { stFx with failPut := [Key.dirKey "d"] }

/-- A fresh file entry `/b` to be added to the fixture. -/
def mbFx : MetaData := { mkMetaDataDefault 0 0 with name := "b", data_map := some "" }

/-- A store holding one directory envelope under key `"d"` whose decrypted
listing carries the mismatching identifier `"e"`. -/
def stMismatchFx : St :=
  { store := [(Key.dirKey "d",
               Bytes.ownerDir "d" ⟨"p", "d", { directory_id := "e", children := [] }⟩ 7)]
    failPut := []
    events := [] }

/-- The empty store. -/
def stEmptyFx : St := { store := [], failPut := [], events := [] }

/-- A protobuf `MetaData` message with only a data map (a regular file). -/
def pbFileFx : PbMetaData :=
  { name := "a", st_size := 3, creation_time := 1, last_access_time := 1
    last_write_time := 1, st_mode := 0o644, st_nlink := some 1
    st_uid := some 0, st_gid := some 0, link_to := none
    serialised_data_map := some "DM", directory_id := none, notes := [] }

/-- A protobuf `MetaData` message with both fields set (invalid). -/
def pbBothFx : PbMetaData :=
  { pbFileFx with directory_id := some "d" }

/-- A protobuf `MetaData` message with neither field set (invalid). -/
def pbNeitherFx : PbMetaData :=
  { pbFileFx with serialised_data_map := none }

/-- The store produced by a first-run construction on the empty store with
credentials `("k", "p", "w")` and identities `"u"`, `"r"`, `"d"`. -/
def stConstructedFx : St :=
  match constructHandler stEmptyFx "k" "p" "w" "u" "r" "d" ⟨7⟩ 5 0 0 with
  | .ok (_, st) => st
  | .error _ => stEmptyFx

/-- The subtrace of blob-store writes of an event trace. -/
def putsOf (es : List StoreEvent) : List StoreEvent :=
  es.filter StoreEvent.isPut

/-! ## Helper lemmas -/

theorem lookupKey_insertKey (s : List (Key × Bytes)) (k k' : Key) (b : Bytes) :
    lookupKey (insertKey s k b) k' = if k = k' then some b else lookupKey s k' := by
  induction s with
  | nil => simp [insertKey, lookupKey]
  | cons kb rest ih =>
      obtain ⟨k0, b0⟩ := kb
      by_cases h0 : k0 = k
      · subst h0
        by_cases h1 : k0 = k' <;> simp [insertKey, lookupKey, h1]
      · by_cases h1 : k0 = k'
        · subst h1
          have hk : ¬ k = k0 := fun hh => h0 hh.symm
          simp [insertKey, lookupKey, h0, hk]
        · simp [insertKey, lookupKey, h0, h1, ih]

theorem putsOf_append (es fs : List StoreEvent) :
    putsOf (es ++ fs) = putsOf es ++ putsOf fs := by
  simp [putsOf, List.filter_append]

theorem putsOf_getE (es : List StoreEvent) (k : Key) :
    putsOf (es ++ [.getE k]) = putsOf es := by
  simp [putsOf, List.filter_append, StoreEvent.isPut]

theorem putsOf_delE (es : List StoreEvent) (k : Key) :
    putsOf (es ++ [.delE k]) = putsOf es := by
  simp [putsOf, List.filter_append, StoreEvent.isPut]

theorem putsOf_putE (es : List StoreEvent) (k : Key) :
    putsOf (es ++ [.putE k]) = putsOf es ++ [.putE k] := by
  simp [putsOf, List.filter_append, StoreEvent.isPut]

theorem putsOf_nil : putsOf [] = [] := rfl

theorem putsOf_cons_putE (k : Key) (es : List StoreEvent) :
    putsOf (StoreEvent.putE k :: es) = StoreEvent.putE k :: putsOf es := by
  simp [putsOf, StoreEvent.isPut]

theorem dsGet_ok (st : St) (k : Key) (b : Bytes) (st' : St)
    (h : dsGet st k = .ok (b, st')) :
    lookupKey st.store k = some b ∧
      st' = { st with events := st.events ++ [.getE k] } := by
  unfold dsGet at h
  rcases hl : lookupKey st.store k with _ | b0 <;> rw [hl] at h <;>
    simp_all

theorem dsPut_ok (st : St) (k : Key) (b : Bytes) (st' : St)
    (h : dsPut st k b = .ok st') :
    k ∉ st.failPut ∧
      st' = { st with store := insertKey st.store k b
                      events := st.events ++ [.putE k] } := by
  unfold dsPut at h
  by_cases hm : k ∈ st.failPut <;> simp_all

theorem dsPut_not_fail (st : St) (k : Key) (b : Bytes) (h : k ∉ st.failPut) :
    dsPut st k b = .ok { st with store := insertKey st.store k b
                                 events := st.events ++ [.putE k] } := by
  simp [dsPut, h]

theorem putToStorage_ok (maid : Maid) (st : St) (dir : DirectoryData) (st' : St)
    (h : putToStorage maid st dir = .ok st') :
    Key.dirKey dir.listing.directory_id ∉ st.failPut ∧
      st' = { st with
              store := insertKey st.store (Key.dirKey dir.listing.directory_id)
                         (Bytes.ownerDir dir.listing.directory_id
                           ⟨dir.parent_id, dir.listing.directory_id, dir.listing⟩
                           maid.key)
              events := st.events ++ [.putE (Key.dirKey dir.listing.directory_id)] } := by
  exact dsPut_ok st _ _ st' h

theorem retrieveFromStorage_ok (st : St) (p d : Ident) (dd : DirectoryData) (st' : St)
    (h : retrieveFromStorage st p d = .ok (dd, st')) :
    dd.parent_id = p ∧
      st' = { st with events := st.events ++ [.getE (Key.dirKey d)] } := by
  unfold retrieveFromStorage at h
  rcases hg : dsGet st (Key.dirKey d) with e | ⟨b, st1⟩ <;> rw [hg] at h
  · simp at h
  · obtain ⟨_, h1⟩ := dsGet_ok st _ _ _ hg
    subst h1
    dsimp only at h
    rcases b with e1 | e2 | ⟨nm, enc, sig⟩ <;> dsimp only at h
    · simp at h
    · simp at h
    · rcases hd : decryptDataMap p d enc with e3 | listing <;> rw [hd] at h <;>
        dsimp only at h
      · simp at h
      · simp only [Except.ok.injEq, Prod.mk.injEq] at h
        obtain ⟨hA, hB⟩ := h
        subst hA
        subst hB
        exact ⟨rfl, rfl⟩

theorem walkPath_state (p : RPath) (st : St) (dir : DirectoryData) (first : Bool)
    (dd : DirectoryData) (st' : St)
    (h : walkPath st dir first p = .ok (dd, st')) :
    st'.store = st.store ∧ st'.failPut = st.failPut ∧
      putsOf st'.events = putsOf st.events := by
  induction p generalizing st dir first with
  | nil => unfold walkPath at h; simp_all
  | cons c rest ih =>
      unfold walkPath at h
      rcases hg : dir.listing.getChild (if first then "/" else c) with e | meta <;>
        rw [hg] at h <;> dsimp only at h
      · simp at h
      · rcases hmd : meta.directory_id with _ | d <;> rw [hmd] at h <;> dsimp only at h
        · simp at h
        · rcases hr : retrieveFromStorage st dir.listing.directory_id d with e | ⟨dir2, st2⟩ <;>
            rw [hr] at h <;> dsimp only at h
          · simp at h
          · obtain ⟨_, h2⟩ := retrieveFromStorage_ok st _ _ _ _ hr
            subst h2
            obtain ⟨ha, hb, hc⟩ := ih _ _ _ h
            refine ⟨ha, hb, ?_⟩
            rw [hc, putsOf_getE]

theorem getFromPath_state (h : Handler) (st : St) (p : RPath)
    (dd : DirectoryData) (st' : St)
    (hok : getFromPath h st p = .ok (dd, st')) :
    st'.store = st.store ∧ st'.failPut = st.failPut ∧
      putsOf st'.events = putsOf st.events := by
  unfold getFromPath at hok
  rcases hr : retrieveFromStorage st h.unique_user_id h.root_parent_id with e | ⟨dir, st1⟩ <;>
    rw [hr] at hok
  · simp at hok
  · obtain ⟨_, h1⟩ := retrieveFromStorage_ok st _ _ _ _ hr
    subst h1
    obtain ⟨ha, hb, hc⟩ := walkPath_state _ _ _ _ _ _ hok
    exact ⟨ha, hb, by rw [hc, putsOf_getE]⟩

theorem getParentAndGrandparent_state (h : Handler) (st : St) (p : RPath)
    (gp par : DirectoryData) (pm : MetaData) (st' : St)
    (hok : getParentAndGrandparent h st p = .ok (gp, par, pm, st')) :
    st'.store = st.store ∧ st'.failPut = st.failPut ∧
      putsOf st'.events = putsOf st.events := by
  unfold getParentAndGrandparent at hok
  rcases h1 : getFromPath h st (parentPath (parentPath p)) with e | ⟨g1, st1⟩ <;>
    rw [h1] at hok <;> dsimp only at hok
  · simp at hok
  · rcases h2 : g1.listing.getChild (filenameOf (parentPath p)) with e | pm1 <;>
      rw [h2] at hok <;> dsimp only at hok
    · simp at hok
    · rcases h3 : pm1.directory_id.isSome with _ | _ <;> rw [h3] at hok <;>
        simp only [Bool.false_eq_true, if_false, if_true] at hok
      · simp at hok
      · rcases h4 : getFromPath h st1 (parentPath p) with e | ⟨p1, st2⟩ <;>
          rw [h4] at hok <;> dsimp only at hok
        · simp at hok
        · obtain ⟨ha1, hb1, hc1⟩ := getFromPath_state _ _ _ _ _ h1
          obtain ⟨ha2, hb2, hc2⟩ := getFromPath_state _ _ _ _ _ h4
          simp only [Except.ok.injEq, Prod.mk.injEq] at hok
          obtain ⟨_, _, _, h5⟩ := hok
          subst h5
          exact ⟨ha2.trans ha1, hb2.trans hb1, hc2.trans hc1⟩

theorem mem_insertChild (m : MetaData) (cs : List MetaData) :
    m ∈ DirectoryListing.insertChild m cs := by
  induction cs with
  | nil => simp [DirectoryListing.insertChild]
  | cons c rest ih =>
      unfold DirectoryListing.insertChild
      by_cases h : DirectoryListing.charListLe (nameKey m.name).data (nameKey c.name).data = true <;> simp [h, ih]

theorem filter_insertChild (m : MetaData) (cs : List MetaData)
    (h : ∀ c ∈ cs, ¬ nameKey c.name = nameKey m.name) :
    (DirectoryListing.insertChild m cs).filter
        (fun c => !(nameKey c.name == nameKey m.name)) = cs := by
  induction cs with
  | nil => simp [DirectoryListing.insertChild]
  | cons c rest ih =>
      have hc : ¬ nameKey c.name = nameKey m.name := h c (by simp)
      have hrest : ∀ c' ∈ rest, ¬ nameKey c'.name = nameKey m.name :=
        fun c' hc' => h c' (by simp [hc'])
      have hfilter : rest.filter (fun c' => !(nameKey c'.name == nameKey m.name)) = rest :=
        List.filter_eq_self.mpr (fun a ha => by simpa using hrest a ha)
      unfold DirectoryListing.insertChild
      by_cases hle : DirectoryListing.charListLe (nameKey m.name).data (nameKey c.name).data = true <;>
        simp [hle, List.filter_cons, hc, hfilter, ih hrest]

theorem find?_insertChild_self (m : MetaData) (cs : List MetaData)
    (p : MetaData → Bool) (hm : p m = true) (hcs : ∀ c ∈ cs, p c = false) :
    (DirectoryListing.insertChild m cs).find? p = some m := by
  induction cs with
  | nil => simp [DirectoryListing.insertChild, List.find?, hm]
  | cons c rest ih =>
      have hc : p c = false := hcs c (by simp)
      have hrest : ∀ c' ∈ rest, p c' = false := fun c' hc' => hcs c' (by simp [hc'])
      unfold DirectoryListing.insertChild
      by_cases hle : DirectoryListing.charListLe (nameKey m.name).data (nameKey c.name).data = true <;>
        simp [hle, List.find?, hm, hc, ih hrest]

theorem find?_insertChild_none (m : MetaData) (cs : List MetaData)
    (p : MetaData → Bool) (hm : p m = false) (hcs : ∀ c ∈ cs, p c = false) :
    (DirectoryListing.insertChild m cs).find? p = none := by
  induction cs with
  | nil => simp [DirectoryListing.insertChild, List.find?, hm]
  | cons c rest ih =>
      have hc : p c = false := hcs c (by simp)
      have hrest : ∀ c' ∈ rest, p c' = false := fun c' hc' => hcs c' (by simp [hc'])
      unfold DirectoryListing.insertChild
      by_cases hle : DirectoryListing.charListLe (nameKey m.name).data (nameKey c.name).data = true <;>
        simp [hle, List.find?, hm, hc, ih hrest] <;> exact hrest

theorem addChild_ok (l : DirectoryListing) (m : MetaData) (l' : DirectoryListing)
    (h : l.addChild m = .ok l') :
    l.hasChild m.name = false ∧
      l' = { l with children := DirectoryListing.insertChild m l.children } := by
  unfold DirectoryListing.addChild at h
  by_cases hc : l.hasChild m.name = true <;> simp [hc] at h <;> simp_all

theorem hasChild_insertChild_self (l : DirectoryListing) (m : MetaData) :
    DirectoryListing.hasChild
      { l with children := DirectoryListing.insertChild m l.children } m.name = true := by
  unfold DirectoryListing.hasChild
  rw [List.any_eq_true]
  exact ⟨m, mem_insertChild m l.children, by simp⟩

theorem hasChild_false_forall (l : DirectoryListing) (name : String)
    (h : l.hasChild name = false) :
    ∀ c ∈ l.children, ¬ nameKey c.name = nameKey name := by
  intro c hc
  unfold DirectoryListing.hasChild at h
  rw [List.any_eq_false] at h
  simpa using h c hc

theorem removeChild_addChild (l : DirectoryListing) (m : MetaData)
    (l' : DirectoryListing) (h : l.addChild m = .ok l') :
    l'.removeChild m = .ok l := by
  obtain ⟨h1, h2⟩ := addChild_ok l m l' h
  subst h2
  unfold DirectoryListing.removeChild
  rw [if_pos (hasChild_insertChild_self l m)]
  rw [filter_insertChild m l.children (hasChild_false_forall l m.name h1)]

theorem updateChild_create_ok (l : DirectoryListing) (m : MetaData) :
    ∃ l', l.updateChild m true = .ok l' ∧ l'.directory_id = l.directory_id := by
  unfold DirectoryListing.updateChild
  by_cases hc : l.hasChild m.name = true <;> simp [hc]

theorem updateChild_create_ne_error (l : DirectoryListing) (m : MetaData) (e : DriveError) :
    l.updateChild m true ≠ .error e := by
  unfold DirectoryListing.updateChild
  by_cases hc : l.hasChild m.name = true <;> simp [hc]

theorem updateChild_ok_dirId (l : DirectoryListing) (m : MetaData) (c : Bool)
    (l' : DirectoryListing) (h : l.updateChild m c = .ok l') :
    l'.directory_id = l.directory_id := by
  unfold DirectoryListing.updateChild at h
  split at h
  · simp only [Except.ok.injEq] at h
    rw [← h]
  · split at h
    · simp only [Except.ok.injEq] at h
      rw [← h]
    · simp at h

theorem putToStorage_error (maid : Maid) (st : St) (dir : DirectoryData) (e : DriveError)
    (h : putToStorage maid st dir = .error e) :
    Key.dirKey dir.listing.directory_id ∈ st.failPut := by
  unfold putToStorage dsPut at h
  by_cases hm : Key.dirKey dir.listing.directory_id ∈ st.failPut <;> simp_all

/-! ## Theorems for the claims -/

/-- C9: `GetDataMap` and `GetDataMapHidden` are behaviourally equivalent —
for every path and output pointer they produce the same serialized `DataMap`
on success and the same error otherwise, being aliases of the same
underlying `ReadDataMap`. -/
theorem c9_get_data_map_hidden_alias (h : Handler) (st : St) (p : RPath)
    (out_ptr_valid : Bool) :
    getDataMap h st p out_ptr_valid = getDataMapHidden h st p out_ptr_valid := rfl

/-- C10: renaming a path to itself is a complete no-op — for every path
(existing or not), every `MetaData` and every initial `reclaimed_space`,
`RenameElement(p, p, meta, reclaimed_space)` returns successfully with the
store state (contents and event trace) untouched and `meta` and
`reclaimed_space` unchanged. -/
theorem c10_rename_self_noop (h : Handler) (posix : Bool) (now : Nat) (st : St)
    (p : RPath) (meta : MetaData) (reclaimed_space : Int) :
    renameElement h posix now st p p meta reclaimed_space =
      .ok (meta, reclaimed_space, st) := by
  simp [renameElement]

/-- C7 counterexample: the default `MetaData` constructor
(`meta_data.cc:101`) produces a value with `data_map` and `directory_id`
both absent, so not every `MetaData` the code produces satisfies the
exclusive-or invariant. -/
theorem c7_counterexample_default_meta_both_absent :
    metaXor (mkMetaDataDefault 0 0) = false := rfl

/-- C7 (amended): the named constructor `MetaData(name, is_directory)` and
the deserialising constructor establish the exclusive-or invariant — the
named constructor always, and deserialisation fails on a serialized form
with both fields set (`ParsingError`) or both absent (`InvalidParameter`)
and yields the invariant on success; the default constructor, however,
produces a `MetaData` with neither field (see the counterexample). -/
theorem c7_meta_xor_constructors_and_parse :
    (∀ (name : String) (is_directory : Bool) (fresh : Ident) (now uid gid : Nat),
        metaXor (mkMetaData name is_directory fresh now uid gid) = true) ∧
    (∀ (pb : PbMetaData) (m : MetaData),
        metaDataFromSerialised pb = .ok m → metaXor m = true) ∧
    (∀ (pb : PbMetaData), pb.serialised_data_map.isSome → pb.directory_id.isSome →
        metaDataFromSerialised pb = .error .parsingError) ∧
    (∀ (pb : PbMetaData), pb.serialised_data_map = none → pb.directory_id = none →
        metaDataFromSerialised pb = .error .invalidParameter) := by
  refine ⟨?_, ?_, ?_, ?_⟩
  · intro name is_directory fresh now uid gid
    cases is_directory <;> simp [mkMetaData, metaXor]
  · intro pb m hok
    unfold metaDataFromSerialised at hok
    rcases hdm : pb.serialised_data_map with _ | dm <;>
      rcases hdid : pb.directory_id with _ | d <;>
        simp [hdm, hdid] at hok <;> simp [← hok, metaXor]
  · intro pb h1 h2
    rcases hdm : pb.serialised_data_map with _ | dm <;>
      rcases hdid : pb.directory_id with _ | d <;>
        simp [hdm, hdid] at h1 h2 ⊢ <;>
          simp [metaDataFromSerialised, hdm, hdid]
  · intro pb h1 h2
    simp [metaDataFromSerialised, h1, h2]

/-- C7 witness: the amended theorem applied to concrete inputs — the named
constructor for a file, a parsed file message, a both-set message and a
both-absent message. -/
theorem c7_meta_xor_constructors_and_parse_witness :
    metaXor (mkMetaData "a" false "i" 0 0 0) = true ∧
    (∀ (m : MetaData), metaDataFromSerialised pbFileFx = .ok m → metaXor m = true) ∧
    metaDataFromSerialised pbBothFx = .error .parsingError ∧
    metaDataFromSerialised pbNeitherFx = .error .invalidParameter :=
  ⟨c7_meta_xor_constructors_and_parse.1 "a" false "i" 0 0 0,
   fun m hm => c7_meta_xor_constructors_and_parse.2.1 pbFileFx m hm,
   c7_meta_xor_constructors_and_parse.2.2.1 pbBothFx (by decide) (by decide),
   c7_meta_xor_constructors_and_parse.2.2.2 pbNeitherFx (by decide) (by decide)⟩

/-- C5 counterexample: a stored envelope under key `"d"` whose decrypted
listing carries the identifier `"e" ≠ "d"` is loaded *successfully* — the
release build performs no identifier check (the source has only a debug
`assert`), so the load does not fail with `ParsingError` as claimed. -/
theorem c5_counterexample_mismatched_id_load_succeeds :
    retrieveFromStorage stMismatchFx "p" "d" =
      .ok ({ parent_id := "p", listing := { directory_id := "e", children := [] } },
           { store := [(Key.dirKey "d",
                        Bytes.ownerDir "d"
                          ⟨"p", "d", { directory_id := "e", children := [] }⟩ 7)]
             failPut := []
             events := [.getE (Key.dirKey "d")] }) ∧
    ("e" : Ident) ≠ "d" := by
  exact ⟨rfl, by decide⟩

/-- C5 (amended): whenever the envelope fetch and the data-map decryption
succeed, `RetrieveFromStorage` returns the parsed listing unconditionally —
no self-consistency check between the parsed identifier and the requested
`directory_id` is performed (the source's `assert` is compiled out of
release builds and never raises `ParsingError`). -/
theorem c5_load_returns_parsed_listing (st : St) (p d nm : Ident)
    (enc : EncDataMap) (sig : Nat) (listing : DirectoryListing)
    (hget : lookupKey st.store (Key.dirKey d) = some (Bytes.ownerDir nm enc sig))
    (hdec : decryptDataMap p d enc = .ok listing) :
    retrieveFromStorage st p d =
      .ok ({ parent_id := p, listing := listing },
           { st with events := st.events ++ [.getE (Key.dirKey d)] }) := by
  unfold retrieveFromStorage dsGet
  rw [hget]
  simp [hdec]

/-- C5 witness: the amended theorem applied to the mismatching fixture. -/
theorem c5_load_returns_parsed_listing_witness :
    retrieveFromStorage stMismatchFx "p" "d" =
      .ok ({ parent_id := "p", listing := { directory_id := "e", children := [] } },
           { stMismatchFx with events := [.getE (Key.dirKey "d")] }) :=
  c5_load_returns_parsed_listing stMismatchFx "p" "d" "d"
    ⟨"p", "d", { directory_id := "e", children := [] }⟩ 7
    { directory_id := "e", children := [] } rfl rfl

/-- C3 counterexample: after a first-run construction on the empty store
(identities `UniqueUserId = "u"`, `RootParentId = "r"`, root directory id
`"d"`), no blob at all is stored under the key `"u"`, and the blob containing
the root-parent directory's listing (the one holding the single child `"/"`)
is stored under the key `"r"` — contradicting the claimed keying of the
root-parent blob by `UniqueUserId` and of the root blob by `RootParentId`. -/
theorem c3_counterexample_root_parent_not_under_unique_user_id :
    (constructHandler stEmptyFx "k" "p" "w" "u" "r" "d" ⟨7⟩ 5 0 0).toOption.map
        (fun x => (lookupKey x.2.store (Key.dirKey "u"),
                   lookupKey x.2.store (Key.dirKey "r"))) =
      some (none,
            some (Bytes.ownerDir "r"
              ⟨"u", "r", { directory_id := "r", children := [rootMetaFx] }⟩ 7)) := by
  rfl

/-- C4 counterexample: deleting the file `/x` on the POSIX variant writes
the grandparent's envelope (key `"r"`, the root-parent) *before* the
parent's envelope (key `"d"`, the root directory) — the documented
parent-before-grandparent order does not hold for `DeleteElement`. -/
theorem c4_counterexample_delete_grandparent_first :
    (deleteElement hFx true 9 stFx ["/", "x"]).toOption.map
        (fun x => x.2.events.filter StoreEvent.isPut) =
      some [.putE (.dirKey "r"), .putE (.dirKey "d")] := by
  rfl

/-- C6 counterexample: renaming `/x` to the fresh name `/y` leaves
`reclaimed_space` untouched at its input value 42 — `RenameSameParent`
assigns it only in the displaced-target branch, so the output is not 0 as
claimed. -/
theorem c6_counterexample_reclaimed_unchanged :
    (renameElement hFx false 9 stFx ["/", "x"] ["/", "y"] mxFx 42).toOption.map
        (fun x => x.2.1) = some 42 := by
  rfl

/-- C8 counterexample: `ExcludedFilename` checks the filename's *stem*, not
the filename: `con.txt` (stem `con`) is rejected although the full filename
matches no reserved device name and contains no excluded character, so the
claimed iff fails at `con.txt`. -/
theorem c8_counterexample_stem_vs_filename :
    excludedFilename ("con.txt".toList) = true ∧
    excludedFilenameClaim ("con.txt".toList) = false := by
  decide

/-- `Char.ofNat` is the identity on code points below the surrogate range. -/
theorem ofNat_toNat_small (n : Nat) (h : n < 55296) : (Char.ofNat n).toNat = n := by
  unfold Char.ofNat
  rw [dif_pos (Or.inl h)]
  rfl

/-- Lowering hits a target below code point 65 (digits, `$`, punctuation)
exactly when the character already is that target: `tolower` moves only
`A`–`Z`, and those land in `a`–`z` (97 and up). -/
theorem toLowerChar_eq_low (d t : Char) (ht : t.toNat < 65) :
    toLowerChar d = t ↔ d = t := by
  constructor
  · intro h
    unfold toLowerChar at h
    split at h
    · rename_i hc
      exfalso
      have h2 := congrArg Char.toNat h
      rw [ofNat_toNat_small _ (by omega)] at h2
      omega
    · exact h
  · intro h
    subst h
    unfold toLowerChar
    rw [if_neg (by omega)]

/-- The excluded-character loop is membership-anywhere. -/
theorem scanExcluded_eq_any (s : List Char) :
    scanExcluded s = s.any (· ∈ excludedChars) := by
  induction s with
  | nil => rfl
  | cons c rest ih =>
      simp only [scanExcluded, List.any_cons, ih]
      by_cases h : c ∈ excludedChars
      · simp [h]
      · simp [h]

/-- The three length-guarded device blocks decide exactly case-insensitive
membership in the classical reserved-device-name list. -/
theorem reservedDeviceCheck_eq_mem (s : List Char) :
    reservedDeviceCheck s = decide (lowerName s ∈ reservedDeviceNames) := by
  rcases s with _ | ⟨a, _ | ⟨b, _ | ⟨c, _ | ⟨d, _ | ⟨e, _ | ⟨g, _ | ⟨h2, t⟩⟩⟩⟩⟩⟩⟩
  · simp [reservedDeviceCheck, reservedDeviceNames, lowerName]
  · simp [reservedDeviceCheck, reservedDeviceNames, lowerName]
  · simp [reservedDeviceCheck, reservedDeviceNames, lowerName]
  · simp [reservedDeviceCheck, reservedDeviceNames, lowerName]
  · by_cases hd : isDigitChar d = true
    · rcases (by simpa [isDigitChar] using hd :
        d = '0' ∨ d = '1' ∨ d = '2' ∨ d = '3' ∨ d = '4' ∨ d = '5' ∨
        d = '6' ∨ d = '7' ∨ d = '8' ∨ d = '9') with h | h | h | h | h | h | h | h | h | h <;>
        subst h <;>
        simp [reservedDeviceCheck, reservedDeviceNames, lowerName, isDigitChar,
          toLowerChar_eq_low, toLowerChar]
    · have hne : ∀ k : Char, isDigitChar k = true → d ≠ k := by
        intro k hk heq
        exact hd (heq ▸ hk)
      simp [reservedDeviceCheck, reservedDeviceNames, lowerName, hd,
        toLowerChar_eq_low]
      exact ⟨fun _ _ _ => hne '1' (by decide), fun _ _ _ => hne '2' (by decide),
        fun _ _ _ => hne '3' (by decide), fun _ _ _ => hne '4' (by decide),
        fun _ _ _ => hne '5' (by decide), fun _ _ _ => hne '6' (by decide),
        fun _ _ _ => hne '7' (by decide), fun _ _ _ => hne '8' (by decide),
        fun _ _ _ => hne '9' (by decide), fun _ _ _ => hne '1' (by decide),
        fun _ _ _ => hne '2' (by decide), fun _ _ _ => hne '3' (by decide),
        fun _ _ _ => hne '4' (by decide), fun _ _ _ => hne '5' (by decide),
        fun _ _ _ => hne '6' (by decide), fun _ _ _ => hne '7' (by decide),
        fun _ _ _ => hne '8' (by decide), fun _ _ _ => hne '9' (by decide)⟩
  · simp [reservedDeviceCheck, reservedDeviceNames, lowerName]
  · by_cases hdol : g = '$'
    · subst hdol
      simp [reservedDeviceCheck, reservedDeviceNames, lowerName,
        toLowerChar_eq_low, toLowerChar]
    · simp [reservedDeviceCheck, reservedDeviceNames, lowerName, hdol,
        toLowerChar_eq_low]
  · simp [reservedDeviceCheck, reservedDeviceNames, lowerName]

/-- C8 (amended): `ExcludedFilename` applies the claimed test — a
case-insensitive reserved-device-name match, or an excluded character
anywhere — to the filename's *stem* (the part before the last dot), not to
the full filename: for every name, the code's verdict equals the claim's
predicate evaluated on the stem. -/
theorem c8_excluded_filename_checks_stem (f : List Char) :
    excludedFilename f = excludedFilenameClaim (stemOf f) := by
  simp only [excludedFilename, excludedFilenameClaim, scanExcluded_eq_any]
  rw [reservedDeviceCheck_eq_mem]

/-- C2: `AddElement` is atomic on failure — whenever the child was
successfully added to the in-memory parent listing and the call then fails
before the grandparent persist (i.e. storing a new child directory's blob
threw, or persisting the parent threw; the grandparent's own persist is
assumed not to fail, matching the claim's scope), the child is removed
again, so the reported final in-memory parent listing equals its pre-call
value. -/
theorem c2_addElement_rollback_on_failure
    (h : Handler) (posix : Bool) (now : Nat) (st : St) (p : RPath) (meta : MetaData)
    (gp par : DirectoryData) (pm : MetaData) (st1 : St) (l1 : DirectoryListing)
    (e : DriveError) (L : DirectoryListing)
    (hgpp : getParentAndGrandparent h st p = .ok (gp, par, pm, st1))
    (hadd : par.listing.addChild meta = .ok l1)
    (hgpfail : Key.dirKey gp.listing.directory_id ∉ st.failPut)
    (hres : addElement h posix now st p meta = ⟨.error e, some L⟩) :
    L = par.listing := by
  have hroll : l1.removeChild meta = .ok par.listing := removeChild_addChild _ _ _ hadd
  have hfail1 : st1.failPut = st.failPut :=
    (getParentAndGrandparent_state _ _ _ _ _ _ _ hgpp).2.1
  unfold addElement at hres
  rw [hgpp] at hres
  dsimp only at hres
  rw [hadd] at hres
  dsimp only at hres
  rcases hmd : meta.directory_id with _ | cd <;> rw [hmd] at hres <;> dsimp only at hres
  · -- file child: no child blob write
    split at hres
    · exact absurd ‹_› (updateChild_create_ne_error _ _ _)
    · rename_i gl1 hupd
      split at hres
      · -- parent persist failed: rolled back
        rw [hroll] at hres
        dsimp only at hres
        simp only [AddResult.mk.injEq, Option.some.injEq] at hres
        exact hres.2.symm
      · rename_i st3 hput3
        split at hres
        · -- grandparent persist cannot fail here
          rename_i e3 hput4
          have hkey := putToStorage_error _ _ _ _ hput4
          have hdir : ({ gp with listing := gl1 } : DirectoryData).listing.directory_id =
              gp.listing.directory_id := updateChild_ok_dirId _ _ _ _ hupd
          rw [hdir] at hkey
          have hf3 : st3.failPut = st1.failPut := by
            obtain ⟨-, h3⟩ := putToStorage_ok _ _ _ _ hput3
            rw [h3]
          rw [hf3, hfail1] at hkey
          exact absurd hkey hgpfail
        · simp at hres
  · -- directory child: the child's blob is written first
    split at hres
    · -- child blob write failed: rolled back
      rw [hroll] at hres
      dsimp only at hres
      simp only [AddResult.mk.injEq, Option.some.injEq] at hres
      exact hres.2.symm
    · rename_i st2 hput2
      split at hres
      · exact absurd ‹_› (updateChild_create_ne_error _ _ _)
      · rename_i gl1 hupd
        split at hres
        · rw [hroll] at hres
          dsimp only at hres
          simp only [AddResult.mk.injEq, Option.some.injEq] at hres
          exact hres.2.symm
        · rename_i st3 hput3
          split at hres
          · rename_i e3 hput4
            have hkey := putToStorage_error _ _ _ _ hput4
            have hdir : ({ gp with listing := gl1 } : DirectoryData).listing.directory_id =
                gp.listing.directory_id := updateChild_ok_dirId _ _ _ _ hupd
            rw [hdir] at hkey
            have hf2 : st2.failPut = st1.failPut := by
              obtain ⟨-, h2⟩ := putToStorage_ok _ _ _ _ hput2
              rw [h2]
            have hf3 : st3.failPut = st2.failPut := by
              obtain ⟨-, h3⟩ := putToStorage_ok _ _ _ _ hput3
              rw [h3]
            rw [hf3, hf2, hfail1] at hkey
            exact absurd hkey hgpfail
          · simp at hres

/-- C2 witness: the rollback theorem applied to the fixture whose parent key
fails: adding `/b` on a store whose `Put` fails on the parent's key `"d"`
fails with an I/O error and reports a final parent listing equal to the
pre-call root listing. -/
theorem c2_addElement_rollback_on_failure_witness :
    addElement hFx true 9 stFxFailParent ["/", "b"] mbFx =
      ⟨.error .ioError, some rootListingFx⟩ ∧
    rootListingFx = rootListingFx := by
  refine ⟨by rfl, ?_⟩
  exact c2_addElement_rollback_on_failure hFx true 9 stFxFailParent ["/", "b"] mbFx
    ⟨"u", rootParentListingFx⟩ ⟨"r", rootListingFx⟩ rootMetaFx
    { store := stFxFailParent.store
      failPut := [Key.dirKey "d"]
      events := [.getE (Key.dirKey "r"), .getE (Key.dirKey "r"), .getE (Key.dirKey "d")] }
    { directory_id := "d", children := [mbFx, mxFx] }
    .ioError rootListingFx (by rfl) (by rfl) (by decide) (by rfl)

/-- C1: constructing a `DirectoryListingHandler` against a store previously
populated by a first-run construction with the same `(keyword, pin,
password)` rehydrates exactly the same `UniqueUserId`, `RootParentId` and
session signing key: the recovery branch inverts `Session::Serialise`
through the TMID/MID put/get indirection. -/
theorem c1_recovery_rehydrates_session
    (st0 : St) (keyword pin password : String)
    (uid rpid d0 : Ident) (maid : Maid) (now u g : Nat)
    (uid2 rpid2 d02 : Ident) (maid2 : Maid) (now2 u2 g2 : Nat)
    (h1 : Handler) (st1 : St)
    (hmid : lookupKey st0.store (Key.midName keyword pin) = none)
    (hfail : st0.failPut = [])
    (hrun : constructHandler st0 keyword pin password uid rpid d0 maid now u g =
              .ok (h1, st1)) :
    (constructHandler st1 keyword pin password uid2 rpid2 d02 maid2 now2 u2 g2).toOption.map
        Prod.fst = some h1 := by
  simp only [constructHandler, dsGet, dsPut, putToStorage, hmid, hfail,
    DirectoryListing.addChild, DirectoryListing.hasChild, DirectoryListing.insertChild,
    List.any_nil, List.not_mem_nil, if_false, ite_false, Bool.false_eq_true,
    Session.serialise, encryptSession, encryptTmidName] at hrun
  simp only [Except.ok.injEq, Prod.mk.injEq] at hrun
  obtain ⟨hh, hst⟩ := hrun
  subst hh
  subst hst
  simp [constructHandler, dsGet, dsPut, lookupKey_insertKey,
    decryptTmidName, decryptSession, Session.parse, Session.serialise,
    encryptSession, encryptTmidName, List.head?]
  exact ⟨_, rfl⟩

/-- C1 witness: the theorem applied to the empty store with concrete
credentials and identities. -/
theorem c1_recovery_rehydrates_session_witness :
    lookupKey stEmptyFx.store (Key.midName "k" "p") = none ∧
    constructHandler stEmptyFx "k" "p" "w" "u" "r" "d" ⟨7⟩ 5 0 0 =
      .ok (⟨"u", "r", ⟨7⟩⟩, stConstructedFx) ∧
    (constructHandler stConstructedFx "k" "p" "w" "u2" "r2" "d2" ⟨9⟩ 6 0 0).toOption.map
        Prod.fst = some (⟨"u", "r", ⟨7⟩⟩ : Handler) := by
  refine ⟨rfl, by rfl, ?_⟩
  exact c1_recovery_rehydrates_session stEmptyFx "k" "p" "w" "u" "r" "d" ⟨7⟩ 5 0 0
    "u2" "r2" "d2" ⟨9⟩ 6 0 0 ⟨"u", "r", ⟨7⟩⟩ stConstructedFx rfl rfl (by rfl)

/-- C3 (amended): `PutToStorage` keys every directory envelope by the
listing's *own* `directory_id`, so after a first run (with the three fresh
identities pairwise distinct, as random 64-byte identities are) the
root-parent directory's listing is stored under `RootParentId`, the root
directory's listing under its own fresh `DirectoryId`, and nothing is stored
under `UniqueUserId` — it serves only as the root-parent's `parent_id`
(AEAD associated data), never as a storage key. -/
theorem c3_blobs_keyed_by_own_directory_id
    (st0 : St) (keyword pin password : String) (uid rpid d0 : Ident)
    (maid : Maid) (now u g : Nat) (h1 : Handler) (st1 : St)
    (hmid : lookupKey st0.store (Key.midName keyword pin) = none)
    (hfail : st0.failPut = [])
    (hne1 : rpid ≠ d0) (hne2 : uid ≠ rpid) (hne3 : uid ≠ d0)
    (hrun : constructHandler st0 keyword pin password uid rpid d0 maid now u g =
              .ok (h1, st1)) :
    lookupKey st1.store (Key.dirKey rpid) =
      some (Bytes.ownerDir rpid
        ⟨uid, rpid, { directory_id := rpid
                      children := [mkMetaData "/" true d0 now u g] }⟩ maid.key) ∧
    lookupKey st1.store (Key.dirKey d0) =
      some (Bytes.ownerDir d0
        ⟨rpid, d0, { directory_id := d0, children := [] }⟩ maid.key) ∧
    lookupKey st1.store (Key.dirKey uid) = lookupKey st0.store (Key.dirKey uid) := by
  simp only [constructHandler, dsGet, dsPut, putToStorage, hmid, hfail,
    DirectoryListing.addChild, DirectoryListing.hasChild, DirectoryListing.insertChild,
    List.any_nil, List.not_mem_nil, if_false, ite_false, Bool.false_eq_true,
    Session.serialise, encryptSession, encryptTmidName] at hrun
  simp only [Except.ok.injEq, Prod.mk.injEq] at hrun
  obtain ⟨-, hst⟩ := hrun
  subst hst
  refine ⟨?_, ?_, ?_⟩ <;>
    simp [lookupKey_insertKey, hne1.symm, hne2.symm, hne3.symm]

/-- C3 witness: the amended theorem applied to the first-run fixture. -/
theorem c3_blobs_keyed_by_own_directory_id_witness :
    lookupKey stConstructedFx.store (Key.dirKey "r") =
      some (Bytes.ownerDir "r"
        ⟨"u", "r", { directory_id := "r"
                     children := [mkMetaData "/" true "d" 5 0 0] }⟩ 7) ∧
    lookupKey stConstructedFx.store (Key.dirKey "d") =
      some (Bytes.ownerDir "d"
        ⟨"r", "d", { directory_id := "d", children := [] }⟩ 7) ∧
    lookupKey stConstructedFx.store (Key.dirKey "u") =
      lookupKey stEmptyFx.store (Key.dirKey "u") :=
  c3_blobs_keyed_by_own_directory_id stEmptyFx "k" "p" "w" "u" "r" "d" ⟨7⟩ 5 0 0
    ⟨"u", "r", ⟨7⟩⟩ stConstructedFx rfl rfl (by decide) (by decide) (by decide) (by rfl)

theorem deleteStored_state (st : St) (p d : Ident) (st' : St)
    (h : deleteStored st p d = .ok st') :
    st'.failPut = st.failPut ∧ putsOf st'.events = putsOf st.events := by
  unfold deleteStored at h
  rcases hg : dsGet st (Key.dirKey d) with e | ⟨b, st1⟩ <;> rw [hg] at h <;> dsimp only at h
  · simp at h
  · obtain ⟨-, h1⟩ := dsGet_ok _ _ _ _ hg
    subst h1
    rcases b with e1 | e2 | ⟨nm, enc, sig⟩ <;> dsimp only at h
    · simp at h
    · simp at h
    · rcases hd : decryptDataMap p d enc with e3 | listing <;> rw [hd] at h <;>
        dsimp only at h
      · simp at h
      · simp only [Except.ok.injEq] at h
        subst h
        unfold dsDel
        exact ⟨rfl, by simp [putsOf, List.filter_append, StoreEvent.isPut]⟩


theorem removeChild_ok_dirId (l : DirectoryListing) (m : MetaData)
    (l' : DirectoryListing) (h : l.removeChild m = .ok l') :
    l'.directory_id = l.directory_id := by
  unfold DirectoryListing.removeChild at h
  split at h
  · simp only [Except.ok.injEq] at h
    rw [← h]
  · simp at h

theorem addChild_ok_dirId (l : DirectoryListing) (m : MetaData)
    (l' : DirectoryListing) (h : l.addChild m = .ok l') :
    l'.directory_id = l.directory_id := by
  obtain ⟨-, h2⟩ := addChild_ok _ _ _ h
  rw [h2]

theorem updateChild_swallow_dirId (l : DirectoryListing) (m : MetaData) (c : Bool) :
    (match l.updateChild m c with
     | .ok gl => gl
     | .error _ => l).directory_id = l.directory_id := by
  rcases hu : l.updateChild m c with e | gl
  · rfl
  · exact updateChild_ok_dirId _ _ _ _ hu

/-- C4 (amended): within a single mutating call the writes occur in the
order the code performs them — `AddElement` writes a newly created child
directory's blob, then the parent listing, then the grandparent listing, in
that order; but `DeleteElement` writes the parent listing *last*: on POSIX
the grandparent listing is persisted before the parent, and on Windows only
the parent is written. -/
theorem c4_put_order_add_and_delete
    (h : Handler) (posix : Bool) (now : Nat) (st : St) (p : RPath) (meta : MetaData) :
    (∀ (gid pid : Ident) (st4 : St),
        (addElement h posix now st p meta).result = .ok (gid, pid, st4) →
        putsOf st4.events =
          putsOf st.events ++
            (match meta.directory_id with
             | some cd => [StoreEvent.putE (Key.dirKey cd)]
             | none => []) ++
            [StoreEvent.putE (Key.dirKey pid), StoreEvent.putE (Key.dirKey gid)]) ∧
    (∀ (gp par : DirectoryData) (pm meta' : MetaData) (st1 st4 : St),
        getParentAndGrandparent h st p = .ok (gp, par, pm, st1) →
        deleteElement h posix now st p = .ok (meta', st4) →
        putsOf st4.events =
          putsOf st.events ++
            (if posix then
               [StoreEvent.putE (Key.dirKey gp.listing.directory_id),
                StoreEvent.putE (Key.dirKey par.listing.directory_id)]
             else [StoreEvent.putE (Key.dirKey par.listing.directory_id)])) := by
  constructor
  · intro gid pid st4 hres
    unfold addElement at hres
    rcases hgpp : getParentAndGrandparent h st p with e | ⟨gp, par, pm, st1⟩ <;>
      rw [hgpp] at hres <;> dsimp only at hres
    · simp at hres
    · have hst1 : putsOf st1.events = putsOf st.events :=
        (getParentAndGrandparent_state _ _ _ _ _ _ _ hgpp).2.2
      rcases hadd : par.listing.addChild meta with e | l1 <;> rw [hadd] at hres <;>
        dsimp only at hres
      · simp at hres
      · have hl1 : l1.directory_id = par.listing.directory_id :=
          addChild_ok_dirId _ _ _ hadd
        rcases hmd : meta.directory_id with _ | cd <;> rw [hmd] at hres <;>
          dsimp only at hres
        · -- file child: no child blob write
          split at hres
          · simp at hres
          · rename_i gl1 hupd
            split at hres
            · rw [removeChild_addChild _ _ _ hadd] at hres
              dsimp only at hres
              simp at hres
            · rename_i st3 hput3
              split at hres
              · simp at hres
              · rename_i st4' hput4
                simp only [Except.ok.injEq, Prod.mk.injEq] at hres
                obtain ⟨hgid, hpid, hst4⟩ := hres
                subst hgid hpid hst4
                obtain ⟨-, h3⟩ := putToStorage_ok _ _ _ _ hput3
                obtain ⟨-, h4⟩ := putToStorage_ok _ _ _ _ hput4
                subst h3 h4
                have hgl : gl1.directory_id = gp.listing.directory_id :=
                  updateChild_ok_dirId _ _ _ _ hupd
                simp [putsOf_append, putsOf_cons_putE, putsOf_nil, hst1, hgl, hl1]
        · -- directory child: child blob, then parent, then grandparent
          split at hres
          · rw [removeChild_addChild _ _ _ hadd] at hres
            dsimp only at hres
            simp at hres
          · rename_i st2 hput2
            split at hres
            · simp at hres
            · rename_i gl1 hupd
              split at hres
              · rw [removeChild_addChild _ _ _ hadd] at hres
                dsimp only at hres
                simp at hres
              · rename_i st3 hput3
                split at hres
                · simp at hres
                · rename_i st4' hput4
                  simp only [Except.ok.injEq, Prod.mk.injEq] at hres
                  obtain ⟨hgid, hpid, hst4⟩ := hres
                  subst hgid hpid hst4
                  obtain ⟨-, h2⟩ := putToStorage_ok _ _ _ _ hput2
                  obtain ⟨-, h3⟩ := putToStorage_ok _ _ _ _ hput3
                  obtain ⟨-, h4⟩ := putToStorage_ok _ _ _ _ hput4
                  subst h2 h3 h4
                  have hgl : gl1.directory_id = gp.listing.directory_id :=
                    updateChild_ok_dirId _ _ _ _ hupd
                  simp [putsOf_append, putsOf_cons_putE, putsOf_nil, hst1, hgl, hl1]
  · intro gp par pm meta' st1 st4 hgpp hres
    unfold deleteElement at hres
    rw [hgpp] at hres
    dsimp only at hres
    have hst1 : putsOf st1.events = putsOf st.events :=
      (getParentAndGrandparent_state _ _ _ _ _ _ _ hgpp).2.2
    rcases hget : par.listing.getChild (filenameOf p) with e | meta0 <;>
      rw [hget] at hres <;> dsimp only at hres
    · simp at hres
    · rcases hmd : meta0.directory_id with _ | d <;> rw [hmd] at hres <;>
        dsimp only at hres
      · -- file child: no stored-tree deletion
        rcases hrc : par.listing.removeChild meta0 with e | l1 <;> rw [hrc] at hres <;>
          dsimp only at hres
        · simp at hres
        · have hl1 : l1.directory_id = par.listing.directory_id :=
            removeChild_ok_dirId _ _ _ hrc
          cases posix <;>
            simp only [Bool.false_eq_true, eq_self_iff_true, if_true, if_false,
              ite_true, ite_false] at hres ⊢
          · split at hres
            · simp at hres
            · rename_i st5 hput5
              simp only [Except.ok.injEq, Prod.mk.injEq] at hres
              obtain ⟨-, hst4⟩ := hres
              subst hst4
              obtain ⟨-, h5⟩ := putToStorage_ok _ _ _ _ hput5
              subst h5
              simp [putsOf_append, putsOf_cons_putE, putsOf_nil, hst1, hl1]
          · split at hres
            · simp at hres
            · rename_i st5 hput5
              split at hres
              · simp at hres
              · rename_i st6 hput6
                simp only [Except.ok.injEq, Prod.mk.injEq] at hres
                obtain ⟨-, hst4⟩ := hres
                subst hst4
                obtain ⟨-, h5⟩ := putToStorage_ok _ _ _ _ hput5
                obtain ⟨-, h6⟩ := putToStorage_ok _ _ _ _ hput6
                subst h5 h6
                simp [putsOf_append, putsOf_cons_putE, putsOf_nil, hst1, hl1,
                  updateChild_swallow_dirId]
      · -- directory child: load and delete the stored listing first
        rcases hgf : getFromPath h st1 p with e | ⟨dd2, stG⟩ <;> rw [hgf] at hres <;>
          dsimp only at hres
        · simp at hres
        · rcases hds : deleteStored stG par.listing.directory_id d with e | stA <;>
            rw [hds] at hres <;> dsimp only at hres
          · simp at hres
          · have hpuG : putsOf stG.events = putsOf st1.events :=
              (getFromPath_state _ _ _ _ _ hgf).2.2
            have hpuA : putsOf stA.events = putsOf st1.events :=
              (deleteStored_state _ _ _ _ hds).2.trans hpuG
            rcases hrc : par.listing.removeChild meta0 with e | l1 <;> rw [hrc] at hres <;>
              dsimp only at hres
            · simp at hres
            · have hl1 : l1.directory_id = par.listing.directory_id :=
                removeChild_ok_dirId _ _ _ hrc
              cases posix <;>
            simp only [Bool.false_eq_true, eq_self_iff_true, if_true, if_false,
              ite_true, ite_false] at hres ⊢
              · split at hres
                · simp at hres
                · rename_i st5 hput5
                  simp only [Except.ok.injEq, Prod.mk.injEq] at hres
                  obtain ⟨-, hst4⟩ := hres
                  subst hst4
                  obtain ⟨-, h5⟩ := putToStorage_ok _ _ _ _ hput5
                  subst h5
                  simp [putsOf_append, putsOf_cons_putE, putsOf_nil, hpuA, hst1, hl1]
              · split at hres
                · simp at hres
                · rename_i st5 hput5
                  split at hres
                  · simp at hres
                  · rename_i st6 hput6
                    simp only [Except.ok.injEq, Prod.mk.injEq] at hres
                    obtain ⟨-, hst4⟩ := hres
                    subst hst4
                    obtain ⟨-, h5⟩ := putToStorage_ok _ _ _ _ hput5
                    obtain ⟨-, h6⟩ := putToStorage_ok _ _ _ _ hput6
                    subst h5 h6
                    simp [putsOf_append, putsOf_cons_putE, putsOf_nil, hpuA, hst1, hl1,
                      updateChild_swallow_dirId]

/-- C4 witness: the amended theorem applied to the fixture — adding the file
`/b` writes parent `"d"` then grandparent `"r"`; deleting `/x` on POSIX
writes grandparent `"r"` then parent `"d"`. -/
theorem c4_put_order_add_and_delete_witness :
    ((addElement hFx true 9 stFx ["/", "b"] mbFx).result =
        .ok ("r", "d", { stFx with
          store := insertKey
            (insertKey stFx.store (Key.dirKey "d")
              (Bytes.ownerDir "d"
                ⟨"r", "d", { directory_id := "d", children := [mbFx, mxFx] }⟩ 7))
            (Key.dirKey "r")
            (Bytes.ownerDir "r"
              ⟨"u", "r", { directory_id := "r"
                           children := [{ rootMetaFx with st_mtime := 9, st_ctime := 9 }] }⟩ 7)
          events := [.getE (Key.dirKey "r"), .getE (Key.dirKey "r"), .getE (Key.dirKey "d"),
                     .putE (Key.dirKey "d"), .putE (Key.dirKey "r")] }) →
      putsOf [StoreEvent.getE (Key.dirKey "r"), .getE (Key.dirKey "r"), .getE (Key.dirKey "d"),
              .putE (Key.dirKey "d"), .putE (Key.dirKey "r")] =
        putsOf stFx.events ++ [] ++ [.putE (Key.dirKey "d"), .putE (Key.dirKey "r")]) ∧
    (∀ (meta' : MetaData) (st4 : St),
        deleteElement hFx true 9 stFx ["/", "x"] = .ok (meta', st4) →
        putsOf st4.events =
          putsOf stFx.events ++ [.putE (Key.dirKey "r"), .putE (Key.dirKey "d")]) := by
  constructor
  · intro hres
    have := (c4_put_order_add_and_delete hFx true 9 stFx ["/", "b"] mbFx).1 "r" "d" _ hres
    simpa using this
  · intro meta' st4 hres
    have := (c4_put_order_add_and_delete hFx true 9 stFx ["/", "x"]
        (mkMetaDataDefault 0 0)).2 ⟨"u", rootParentListingFx⟩ ⟨"r", rootListingFx⟩
      rootMetaFx meta'
      { store := stFx.store
        failPut := []
        events := [.getE (Key.dirKey "r"), .getE (Key.dirKey "r"), .getE (Key.dirKey "d")] }
      st4 (by rfl) hres
    simpa using this

theorem putToStorage_not_fail (maid : Maid) (st : St) (dir : DirectoryData)
    (h : Key.dirKey dir.listing.directory_id ∉ st.failPut) :
    putToStorage maid st dir =
      .ok { st with
            store := insertKey st.store (Key.dirKey dir.listing.directory_id)
                       (Bytes.ownerDir dir.listing.directory_id
                         ⟨dir.parent_id, dir.listing.directory_id, dir.listing⟩ maid.key)
            events := st.events ++ [.putE (Key.dirKey dir.listing.directory_id)] } :=
  dsPut_not_fail st _ _ h

theorem retrieveFromStorage_found (st : St) (p d nm : Ident)
    (enc : EncDataMap) (sig : Nat) (listing : DirectoryListing)
    (hget : lookupKey st.store (Key.dirKey d) = some (Bytes.ownerDir nm enc sig))
    (hdec : decryptDataMap p d enc = .ok listing) :
    retrieveFromStorage st p d =
      .ok ({ parent_id := p, listing := listing },
           { st with events := st.events ++ [.getE (Key.dirKey d)] }) := by
  unfold retrieveFromStorage dsGet
  rw [hget]
  simp [hdec]

/-- The standard two-level store shape (root-parent under `rpid`, root under
`d0`) as hypotheses for the walk lemmas below. -/
structure StdStore (st : St) (uid rpid d0 : Ident) (RP L : DirectoryListing)
    (rm : MetaData) : Prop where
  hRP : ∃ nm s, lookupKey st.store (Key.dirKey rpid) =
          some (Bytes.ownerDir nm ⟨uid, rpid, RP⟩ s)
  hRPid : RP.directory_id = rpid
  hrm : RP.getChild "/" = .ok rm
  hrmid : rm.directory_id = some d0
  hL : ∃ nm s, lookupKey st.store (Key.dirKey d0) =
          some (Bytes.ownerDir nm ⟨rpid, d0, L⟩ s)
  hLid : L.directory_id = d0

theorem getFromPath_nil_std (st : St) (uid rpid d0 : Ident) (maid : Maid)
    (RP L : DirectoryListing) (rm : MetaData)
    (hstd : StdStore st uid rpid d0 RP L rm) :
    getFromPath ⟨uid, rpid, maid⟩ st [] =
      .ok (⟨uid, RP⟩,
           { st with events := st.events ++ [.getE (Key.dirKey rpid)] }) := by
  obtain ⟨nm, s, hRP⟩ := hstd.hRP
  unfold getFromPath
  rw [retrieveFromStorage_found st uid rpid nm _ s RP hRP (by simp [decryptDataMap])]
  rfl

theorem getFromPath_root_std (st : St) (uid rpid d0 : Ident) (maid : Maid)
    (RP L : DirectoryListing) (rm : MetaData)
    (hstd : StdStore st uid rpid d0 RP L rm) :
    getFromPath ⟨uid, rpid, maid⟩ st ["/"] =
      .ok (⟨rpid, L⟩,
           { st with events := st.events ++
               [.getE (Key.dirKey rpid), .getE (Key.dirKey d0)] }) := by
  obtain ⟨nm1, s1, hRP⟩ := hstd.hRP
  obtain ⟨nm2, s2, hL⟩ := hstd.hL
  unfold getFromPath
  rw [retrieveFromStorage_found st uid rpid nm1 _ s1 RP hRP (by simp [decryptDataMap])]
  unfold walkPath
  rw [if_pos rfl, hstd.hrm]
  dsimp only
  rw [hstd.hrmid]
  dsimp only
  rw [hstd.hRPid]
  rw [retrieveFromStorage_found _ rpid d0 nm2 _ s2 L (by simpa using hL)
        (by simp [decryptDataMap])]
  unfold walkPath
  simp

theorem gpp_std (st : St) (uid rpid d0 : Ident) (maid : Maid)
    (RP L : DirectoryListing) (rm : MetaData) (x : String)
    (hstd : StdStore st uid rpid d0 RP L rm) :
    getParentAndGrandparent ⟨uid, rpid, maid⟩ st ["/", x] =
      .ok (⟨uid, RP⟩, ⟨rpid, L⟩, rm,
           { st with events := st.events ++
               [.getE (Key.dirKey rpid), .getE (Key.dirKey rpid),
                .getE (Key.dirKey d0)] }) := by
  unfold getParentAndGrandparent
  have hpp : parentPath (parentPath ["/", x]) = ([] : RPath) := rfl
  have hp : parentPath ["/", x] = (["/"] : RPath) := rfl
  rw [hpp, hp]
  rw [getFromPath_nil_std st uid rpid d0 maid RP L rm hstd]
  dsimp only
  have hfn : filenameOf (["/"] : RPath) = "/" := rfl
  rw [hfn, hstd.hrm]
  dsimp only
  rw [hstd.hrmid]
  dsimp only [Option.isSome]
  rw [if_pos rfl]
  rw [getFromPath_root_std
        { store := st.store, failPut := st.failPut
          events := st.events ++ [.getE (Key.dirKey rpid)] }
        uid rpid d0 maid RP L rm
        ⟨hstd.hRP, hstd.hRPid, hstd.hrm, hstd.hrmid, hstd.hL, hstd.hLid⟩]
  simp

theorem getMetaData_std (st : St) (uid rpid d0 : Ident) (maid : Maid)
    (RP L : DirectoryListing) (rm : MetaData) (name : String)
    (hstd : StdStore st uid rpid d0 RP L rm) :
    getMetaData ⟨uid, rpid, maid⟩ st ["/", name] =
      match L.getChild name with
      | .ok c => .ok (c, rpid, d0,
          { st with events := st.events ++
              [.getE (Key.dirKey rpid), .getE (Key.dirKey d0)] })
      | .error e => .error e := by
  unfold getMetaData
  have hp : parentPath ["/", name] = (["/"] : RPath) := rfl
  rw [hp]
  rw [getFromPath_root_std st uid rpid d0 maid RP L rm hstd]
  dsimp only
  have hfn : filenameOf (["/", name] : RPath) = name := rfl
  rw [hfn]
  rcases hg : L.getChild name with e | c <;> simp [hstd.hLid]

theorem any_filter_false (cs : List MetaData) (p q : MetaData → Bool)
    (h : cs.any p = false) : (cs.filter q).any p = false := by
  rw [List.any_eq_false] at h ⊢
  intro a ha
  exact h a (List.mem_of_mem_filter ha)

theorem getChild_found (L : DirectoryListing) (x : String) (m : MetaData)
    (h : L.getChild x = .ok m) :
    m ∈ L.children ∧ nameKey m.name = nameKey x := by
  unfold DirectoryListing.getChild at h
  rcases hf : L.children.find? (fun c => nameKey c.name == nameKey x) with _ | m0 <;>
    rw [hf] at h <;> simp at h
  subst h
  exact ⟨List.mem_of_find?_eq_some hf, by simpa using List.find?_some hf⟩

/-- C6 (amended): a same-parent rename of an existing file `/x` to a fresh
name `/y` moves the entry — afterwards looking up `/y` returns the renamed
meta carrying the original file's `DataMap` and looking up `/x` fails
`NotFound` — but `reclaimed_space` is *left unchanged* at its input value
(the fresh-target branch never assigns it), rather than being set to 0. -/
theorem c6_rename_same_parent_fresh_target
    (posix : Bool) (now : Nat) (st : St) (uid rpid d0 : Ident) (maid : Maid)
    (RP L : DirectoryListing) (rm m : MetaData) (x y : String) (r : Int)
    (hstd : StdStore st uid rpid d0 RP L rm)
    (hm : L.getChild x = .ok m)
    (hmname : m.name = x)
    (hy : L.hasChild y = false)
    (hfail : st.failPut = [])
    (hne : rpid ≠ d0) :
    ∃ (m' : MetaData) (st' : St),
      renameElement ⟨uid, rpid, maid⟩ posix now st ["/", x] ["/", y] m r =
        .ok (m', r, st') ∧
      m'.data_map = m.data_map ∧
      (∃ st'', getMetaData ⟨uid, rpid, maid⟩ st' ["/", y] = .ok (m', rpid, d0, st'')) ∧
      getMetaData ⟨uid, rpid, maid⟩ st' ["/", x] = .error .noSuchElement := by
  obtain ⟨hmem, hkey⟩ := getChild_found L x m hm
  have hkxy : ¬ nameKey x = nameKey y := by
    intro he
    have : L.hasChild y = true := by
      unfold DirectoryListing.hasChild
      rw [List.any_eq_true]
      exact ⟨m, hmem, by simp [hkey, he]⟩
    simp [this] at hy
  have hxy : ¬ (["/", x] : RPath) = ["/", y] := by
    intro he
    simp at he
    exact hkxy (by rw [he])
  unfold renameElement
  rw [if_neg hxy, if_pos (show parentPath ["/", x] = parentPath ["/", y] from rfl)]
  have hfy : filenameOf (["/", y] : RPath) = y := rfl
  have hhx : L.hasChild m.name = true := by
    unfold DirectoryListing.hasChild
    rw [List.any_eq_true]
    exact ⟨m, hmem, by simp⟩
  have hnothasy : ¬ L.hasChild y = true := by simp [hy]
  have hychildren : ∀ c ∈ L.children, (nameKey c.name == nameKey y) = false := by
    intro c hc
    unfold DirectoryListing.hasChild at hy
    rw [List.any_eq_false] at hy
    simpa using hy c hc
  have hrc : L.removeChild m =
      .ok ⟨L.directory_id,
           L.children.filter (fun c => !(nameKey c.name == nameKey m.name))⟩ := by
    unfold DirectoryListing.removeChild
    rw [if_pos hhx]
  have hl1y : ∀ c ∈ L.children.filter (fun c => !(nameKey c.name == nameKey m.name)),
      (nameKey c.name == nameKey y) = false :=
    fun c hc => hychildren c (List.mem_of_mem_filter hc)
  have hl1x : ∀ c ∈ L.children.filter (fun c => !(nameKey c.name == nameKey m.name)),
      (nameKey c.name == nameKey x) = false := by
    intro c hc
    have h1 := List.of_mem_filter hc
    simp only [Bool.not_eq_true', beq_eq_false_iff_ne] at h1 ⊢
    rw [← hkey]
    exact h1
  unfold renameSameParent
  rw [gpp_std st uid rpid d0 maid RP L rm x hstd]
  dsimp only
  rw [hfy]
  cases posix
  · -- Windows branch
    simp only [Bool.false_eq_true, ite_false]
    rw [if_pos hnothasy, hrc]
    dsimp only
    have haddc : DirectoryListing.addChild
        ⟨L.directory_id, L.children.filter (fun c => !(nameKey c.name == nameKey m.name))⟩
        { m with name := y } =
        .ok ⟨L.directory_id,
             DirectoryListing.insertChild { m with name := y }
               (L.children.filter (fun c => !(nameKey c.name == nameKey m.name)))⟩ := by
      unfold DirectoryListing.addChild
      rw [if_neg]
      unfold DirectoryListing.hasChild
      simp only [Bool.not_eq_true]
      rw [List.any_eq_false]
      intro c hc
      simpa using hl1y c hc
    rw [haddc]
    dsimp only
    rw [putToStorage_not_fail maid
          { store := st.store, failPut := st.failPut
            events := st.events ++
              [.getE (Key.dirKey rpid), .getE (Key.dirKey rpid), .getE (Key.dirKey d0)] }
          { parent_id := rpid
            listing :=
              { directory_id := L.directory_id
                children := DirectoryListing.insertChild { m with name := y }
                  (L.children.filter fun c => !(nameKey c.name == nameKey m.name)) } }
          (by simp [hfail])]
    dsimp only
    have hstd2 : StdStore
        { store := insertKey st.store (Key.dirKey L.directory_id)
                     (Bytes.ownerDir L.directory_id
                       ⟨rpid, L.directory_id,
                        ⟨L.directory_id,
                         DirectoryListing.insertChild { m with name := y }
                           (L.children.filter fun c =>
                             !(nameKey c.name == nameKey m.name))⟩⟩ maid.key)
          failPut := st.failPut
          events := st.events ++
            [.getE (Key.dirKey rpid), .getE (Key.dirKey rpid), .getE (Key.dirKey d0)] ++
            [.putE (Key.dirKey L.directory_id)] }
        uid rpid d0 RP
        ⟨d0, DirectoryListing.insertChild { m with name := y }
               (L.children.filter fun c => !(nameKey c.name == nameKey m.name))⟩
        rm := by
      obtain ⟨nm1, s1, hRP⟩ := hstd.hRP
      have hkne : ¬ (Key.dirKey L.directory_id = Key.dirKey rpid) := by
        rw [hstd.hLid]
        intro hk
        exact hne (Key.dirKey.inj hk).symm
      refine ⟨⟨nm1, s1, ?_⟩, hstd.hRPid, hstd.hrm, hstd.hrmid,
              ⟨L.directory_id, maid.key, ?_⟩, rfl⟩
      · dsimp only
        rw [lookupKey_insertKey, if_neg hkne]
        exact hRP
      · dsimp only
        rw [← hstd.hLid, lookupKey_insertKey, if_pos rfl]
    have hgety : DirectoryListing.getChild
        ⟨d0, DirectoryListing.insertChild { m with name := y }
               (L.children.filter fun c => !(nameKey c.name == nameKey m.name))⟩ y =
        .ok { m with name := y } := by
      unfold DirectoryListing.getChild
      rw [find?_insertChild_self _ _ _ (by simp) hl1y]
    have hgetx : DirectoryListing.getChild
        ⟨d0, DirectoryListing.insertChild { m with name := y }
               (L.children.filter fun c => !(nameKey c.name == nameKey m.name))⟩ x =
        .error .noSuchElement := by
      unfold DirectoryListing.getChild
      have hm2x : (nameKey ({ m with name := y } : MetaData).name == nameKey x) = false := by
        simp only [beq_eq_false_iff_ne, ne_eq]
        exact fun hh => hkxy hh.symm
      rw [find?_insertChild_none _ _ _ hm2x hl1x]
    have hgmy : ∃ st'', getMetaData ⟨uid, rpid, maid⟩
        { store := insertKey st.store (Key.dirKey L.directory_id)
                     (Bytes.ownerDir L.directory_id
                       ⟨rpid, L.directory_id,
                        ⟨L.directory_id,
                         DirectoryListing.insertChild { m with name := y }
                           (L.children.filter fun c =>
                             !(nameKey c.name == nameKey m.name))⟩⟩ maid.key)
          failPut := st.failPut
          events := st.events ++
            [.getE (Key.dirKey rpid), .getE (Key.dirKey rpid), .getE (Key.dirKey d0)] ++
            [.putE (Key.dirKey L.directory_id)] }
        ["/", y] = .ok ({ m with name := y }, rpid, d0, st'') :=
      ⟨_, by rw [getMetaData_std _ uid rpid d0 maid RP _ rm y hstd2, hgety]⟩
    have hgmx : getMetaData ⟨uid, rpid, maid⟩
        { store := insertKey st.store (Key.dirKey L.directory_id)
                     (Bytes.ownerDir L.directory_id
                       ⟨rpid, L.directory_id,
                        ⟨L.directory_id,
                         DirectoryListing.insertChild { m with name := y }
                           (L.children.filter fun c =>
                             !(nameKey c.name == nameKey m.name))⟩⟩ maid.key)
          failPut := st.failPut
          events := st.events ++
            [.getE (Key.dirKey rpid), .getE (Key.dirKey rpid), .getE (Key.dirKey d0)] ++
            [.putE (Key.dirKey L.directory_id)] }
        ["/", x] = .error .noSuchElement := by
      rw [getMetaData_std _ uid rpid d0 maid RP _ rm x hstd2, hgetx]
    exact ⟨_, _, rfl, rfl, hgmy, hgmx⟩
  · -- POSIX branch
    obtain ⟨hrmmem, hrmkey⟩ := getChild_found RP "/" rm hstd.hrm
    have hhrm : RP.hasChild rm.name = true := by
      unfold DirectoryListing.hasChild
      rw [List.any_eq_true]
      exact ⟨rm, hrmmem, by simp⟩
    simp only [eq_self_iff_true, if_true]
    rw [if_pos hnothasy]
    have hrcP : L.removeChild { m with st_mtime := now, st_ctime := now } =
        .ok ⟨L.directory_id,
             L.children.filter (fun c => !(nameKey c.name == nameKey m.name))⟩ := by
      unfold DirectoryListing.removeChild
      rw [if_pos hhx]
    rw [hrcP]
    dsimp only
    have haddcP : DirectoryListing.addChild
        ⟨L.directory_id, L.children.filter (fun c => !(nameKey c.name == nameKey m.name))⟩
        { m with name := y, st_mtime := now, st_ctime := now } =
        .ok ⟨L.directory_id,
             DirectoryListing.insertChild { m with name := y, st_mtime := now, st_ctime := now }
               (L.children.filter (fun c => !(nameKey c.name == nameKey m.name)))⟩ := by
      unfold DirectoryListing.addChild
      rw [if_neg]
      unfold DirectoryListing.hasChild
      simp only [Bool.not_eq_true]
      rw [List.any_eq_false]
      intro c hc
      simpa using hl1y c hc
    rw [haddcP]
    dsimp only
    rw [putToStorage_not_fail maid
          { store := st.store, failPut := st.failPut
            events := st.events ++
              [.getE (Key.dirKey rpid), .getE (Key.dirKey rpid), .getE (Key.dirKey d0)] }
          { parent_id := rpid
            listing :=
              { directory_id := L.directory_id
                children := DirectoryListing.insertChild
                  { m with name := y, st_mtime := now, st_ctime := now }
                  (L.children.filter fun c => !(nameKey c.name == nameKey m.name)) } }
          (by simp [hfail])]
    dsimp only
    have hupdP : RP.updateChild { rm with st_mtime := now, st_ctime := now } true =
        .ok ⟨RP.directory_id,
             DirectoryListing.insertChild { rm with st_mtime := now, st_ctime := now }
               (RP.children.filter (fun c => !(nameKey c.name == nameKey rm.name)))⟩ := by
      unfold DirectoryListing.updateChild
      rw [if_pos hhrm]
    rw [hupdP]
    dsimp only
    rw [putToStorage_not_fail maid
          { store := insertKey st.store (Key.dirKey L.directory_id)
                       (Bytes.ownerDir L.directory_id
                         ⟨rpid, L.directory_id,
                          ⟨L.directory_id,
                           DirectoryListing.insertChild
                             { m with name := y, st_mtime := now, st_ctime := now }
                             (L.children.filter fun c =>
                               !(nameKey c.name == nameKey m.name))⟩⟩ maid.key)
            failPut := st.failPut
            events := st.events ++
              [.getE (Key.dirKey rpid), .getE (Key.dirKey rpid), .getE (Key.dirKey d0)] ++
              [.putE (Key.dirKey L.directory_id)] }
          { parent_id := uid
            listing :=
              { directory_id := RP.directory_id
                children := DirectoryListing.insertChild
                  { rm with st_mtime := now, st_ctime := now }
                  (RP.children.filter fun c => !(nameKey c.name == nameKey rm.name)) } }
          (by simp [hfail])]
    dsimp only
    have hstdP : StdStore
        { store := insertKey
            (insertKey st.store (Key.dirKey L.directory_id)
              (Bytes.ownerDir L.directory_id
                ⟨rpid, L.directory_id,
                 ⟨L.directory_id,
                  DirectoryListing.insertChild
                    { m with name := y, st_mtime := now, st_ctime := now }
                    (L.children.filter fun c =>
                      !(nameKey c.name == nameKey m.name))⟩⟩ maid.key))
            (Key.dirKey RP.directory_id)
            (Bytes.ownerDir RP.directory_id
              ⟨uid, RP.directory_id,
               ⟨RP.directory_id,
                DirectoryListing.insertChild { rm with st_mtime := now, st_ctime := now }
                  (RP.children.filter fun c =>
                    !(nameKey c.name == nameKey rm.name))⟩⟩ maid.key)
          failPut := st.failPut
          events := st.events ++
            [.getE (Key.dirKey rpid), .getE (Key.dirKey rpid), .getE (Key.dirKey d0)] ++
            [.putE (Key.dirKey L.directory_id)] ++ [.putE (Key.dirKey RP.directory_id)] }
        uid rpid d0
        ⟨rpid, DirectoryListing.insertChild { rm with st_mtime := now, st_ctime := now }
                 (RP.children.filter fun c => !(nameKey c.name == nameKey rm.name))⟩
        ⟨d0, DirectoryListing.insertChild { m with name := y, st_mtime := now, st_ctime := now }
               (L.children.filter fun c => !(nameKey c.name == nameKey m.name))⟩
        { rm with st_mtime := now, st_ctime := now } := by
      have hkne2 : ¬ (Key.dirKey RP.directory_id = Key.dirKey d0) := by
        rw [hstd.hRPid]
        intro hk
        exact hne (Key.dirKey.inj hk)
      refine ⟨⟨RP.directory_id, maid.key, ?_⟩, rfl, ?_, hstd.hrmid,
              ⟨L.directory_id, maid.key, ?_⟩, rfl⟩
      · dsimp only
        rw [← hstd.hRPid, lookupKey_insertKey, if_pos rfl]
      · unfold DirectoryListing.getChild
        rw [find?_insertChild_self]
        · simp [hrmkey]
        · intro c hc
          have h1 := List.of_mem_filter hc
          simp only [Bool.not_eq_true', beq_eq_false_iff_ne] at h1 ⊢
          rw [← hrmkey]
          exact h1
      · dsimp only
        rw [lookupKey_insertKey, if_neg hkne2, ← hstd.hLid, lookupKey_insertKey, if_pos rfl]
    have hgetyP : DirectoryListing.getChild
        ⟨d0, DirectoryListing.insertChild { m with name := y, st_mtime := now, st_ctime := now }
               (L.children.filter fun c => !(nameKey c.name == nameKey m.name))⟩ y =
        .ok { m with name := y, st_mtime := now, st_ctime := now } := by
      unfold DirectoryListing.getChild
      rw [find?_insertChild_self _ _ _ (by simp) hl1y]
    have hgetxP : DirectoryListing.getChild
        ⟨d0, DirectoryListing.insertChild { m with name := y, st_mtime := now, st_ctime := now }
               (L.children.filter fun c => !(nameKey c.name == nameKey m.name))⟩ x =
        .error .noSuchElement := by
      unfold DirectoryListing.getChild
      have hm2x : (nameKey ({ m with name := y, st_mtime := now, st_ctime := now } : MetaData).name ==
          nameKey x) = false := by
        simp only [beq_eq_false_iff_ne, ne_eq]
        exact fun hh => hkxy hh.symm
      rw [find?_insertChild_none _ _ _ hm2x hl1x]
    have hgmyP : ∃ st'', getMetaData ⟨uid, rpid, maid⟩
        { store := insertKey
            (insertKey st.store (Key.dirKey L.directory_id)
              (Bytes.ownerDir L.directory_id
                ⟨rpid, L.directory_id,
                 ⟨L.directory_id,
                  DirectoryListing.insertChild
                    { m with name := y, st_mtime := now, st_ctime := now }
                    (L.children.filter fun c =>
                      !(nameKey c.name == nameKey m.name))⟩⟩ maid.key))
            (Key.dirKey RP.directory_id)
            (Bytes.ownerDir RP.directory_id
              ⟨uid, RP.directory_id,
               ⟨RP.directory_id,
                DirectoryListing.insertChild { rm with st_mtime := now, st_ctime := now }
                  (RP.children.filter fun c =>
                    !(nameKey c.name == nameKey rm.name))⟩⟩ maid.key)
          failPut := st.failPut
          events := st.events ++
            [.getE (Key.dirKey rpid), .getE (Key.dirKey rpid), .getE (Key.dirKey d0)] ++
            [.putE (Key.dirKey L.directory_id)] ++ [.putE (Key.dirKey RP.directory_id)] }
        ["/", y] = .ok ({ m with name := y, st_mtime := now, st_ctime := now },
                        rpid, d0, st'') :=
      ⟨_, by rw [getMetaData_std _ uid rpid d0 maid _ _ _ y hstdP, hgetyP]⟩
    have hgmxP : getMetaData ⟨uid, rpid, maid⟩
        { store := insertKey
            (insertKey st.store (Key.dirKey L.directory_id)
              (Bytes.ownerDir L.directory_id
                ⟨rpid, L.directory_id,
                 ⟨L.directory_id,
                  DirectoryListing.insertChild
                    { m with name := y, st_mtime := now, st_ctime := now }
                    (L.children.filter fun c =>
                      !(nameKey c.name == nameKey m.name))⟩⟩ maid.key))
            (Key.dirKey RP.directory_id)
            (Bytes.ownerDir RP.directory_id
              ⟨uid, RP.directory_id,
               ⟨RP.directory_id,
                DirectoryListing.insertChild { rm with st_mtime := now, st_ctime := now }
                  (RP.children.filter fun c =>
                    !(nameKey c.name == nameKey rm.name))⟩⟩ maid.key)
          failPut := st.failPut
          events := st.events ++
            [.getE (Key.dirKey rpid), .getE (Key.dirKey rpid), .getE (Key.dirKey d0)] ++
            [.putE (Key.dirKey L.directory_id)] ++ [.putE (Key.dirKey RP.directory_id)] }
        ["/", x] = .error .noSuchElement := by
      rw [getMetaData_std _ uid rpid d0 maid _ _ _ x hstdP, hgetxP]
    exact ⟨_, _, rfl, rfl, hgmyP, hgmxP⟩

/-- C6 witness: the amended rename theorem applied to the fixture — renaming
`/x` to `/y` with `reclaimed_space = 42` succeeds, the moved entry keeps the
data map `"DM"`, and the output reclaimed space is still 42. -/
theorem c6_rename_same_parent_fresh_target_witness :
    rootListingFx.getChild "x" = .ok mxFx ∧
    rootListingFx.hasChild "y" = false ∧
    (∃ (m' : MetaData) (st' : St),
      renameElement ⟨"u", "r", ⟨7⟩⟩ false 9 stFx ["/", "x"] ["/", "y"] mxFx 42 =
        .ok (m', 42, st') ∧
      m'.data_map = mxFx.data_map ∧
      (∃ st'', getMetaData ⟨"u", "r", ⟨7⟩⟩ st' ["/", "y"] = .ok (m', "r", "d", st'')) ∧
      getMetaData ⟨"u", "r", ⟨7⟩⟩ st' ["/", "x"] = .error .noSuchElement) :=
  ⟨rfl, rfl,
   c6_rename_same_parent_fresh_target false 9 stFx "u" "r" "d" ⟨7⟩
     rootParentListingFx rootListingFx rootMetaFx mxFx "x" "y" 42
     ⟨⟨"r", 7, rfl⟩, rfl, rfl, rfl, ⟨"d", 7, rfl⟩, rfl⟩
     rfl rfl rfl rfl (by decide)⟩
